import Mathlib

/-!
Verification of the Defect Detective backend (`backend/server.py`) against its
natural-language specification.

The development shallow-embeds the Python source: the JSON decoding performed by
`json.loads`, the fence stripping and sentinel fallback of `analyze_defects`, the
error classification of `LlmChat.send_message`, the pydantic field validation of
`DefectResult` / `AnalysisResult`, the MongoDB insert and the descending-sort
retrieval of `get_analysis_history`.  External nondeterminism (the upstream HTTP
response, the generated uuid, the current time) is passed in explicitly through an
`Env` record; machine-level aspects that the claims do not touch (Python float
representation of non-integral JSON numbers, CPython recursion limits, lone
surrogate code points in JSON string escapes) are modelled by exact rationals,
unbounded fuel and the replacement character respectively, as noted at the
relevant definitions.
-/

set_option maxRecDepth 10000

/-- Whitespace characters of the JSON grammar, exactly the set skipped by
Python `json.loads` (space, tab, newline, carriage return). -/
def isJsonWs (c : Char) : Bool :=
  c = ' ' || c = '\t' || c = '\n' || c = '\r'

/-- Characters removed by Python `str.strip()` with no argument: the code points
for which `str.isspace` holds. -/
def isPySpace (c : Char) : Bool :=
  c = ' ' || c = '\t' || c = '\n' || c = '\r' || c.val = 11 || c.val = 12 ||
  c.val = 28 || c.val = 29 || c.val = 30 || c.val = 31 || c.val = 133 ||
  c.val = 160 || c.val = 0x1680 || (0x2000 ≤ c.val && c.val ≤ 0x200a) ||
  c.val = 0x2028 || c.val = 0x2029 || c.val = 0x202f || c.val = 0x205f ||
  c.val = 0x3000

/-- Python `str.strip()` on a character list: drop whitespace from both ends. -/
def pyStripL (cs : List Char) : List Char :=
  ((cs.dropWhile isPySpace).reverse.dropWhile isPySpace).reverse

/-- Prefix test on character lists, as Python `str.startswith`. -/
def isPrefixL : List Char → List Char → Bool
  | [], _ => true
  | _ :: _, [] => false
  | a :: as, b :: bs => a = b && isPrefixL as bs

/-- Suffix test on character lists, as Python `str.endswith`. -/
def isSuffixL (pat l : List Char) : Bool :=
  isPrefixL pat.reverse l.reverse

/-- Infix test on character lists. -/
def isInfixL : List Char → List Char → Bool
  | pat, [] => pat.isEmpty
  | pat, c :: rest => isPrefixL pat (c :: rest) || isInfixL pat rest

/-- Python's `needle in haystack` test on strings (substring containment). -/
def pyContains (needle hay : String) : Bool :=
  isInfixL needle.data hay.data

/-- Three-way comparison of character lists by code point, the lexicographic
order MongoDB uses for the (ASCII) strings this service stores. -/
def cmpChars : List Char → List Char → Ordering
  | [], [] => .eq
  | [], _ :: _ => .lt
  | _ :: _, [] => .gt
  | a :: as, b :: bs =>
    if a.val < b.val then .lt
    else if b.val < a.val then .gt
    else cmpChars as bs

/-- Decimal digit test on a character, as in the JSON number grammar. -/
def isDigitCh (c : Char) : Bool :=
  48 ≤ c.toNat && c.toNat ≤ 57

/-- Value of a list of decimal digit characters, most significant first. -/
def digitsVal (cs : List Char) : Nat :=
  cs.foldl (fun a c => a * 10 + (c.toNat - 48)) 0

/-- Hexadecimal digit value, for the `\uXXXX` escapes of JSON strings. -/
def hexVal (c : Char) : Option Nat :=
  if 48 ≤ c.toNat ∧ c.toNat ≤ 57 then some (c.toNat - 48)
  else if 97 ≤ c.toNat ∧ c.toNat ≤ 102 then some (c.toNat - 87)
  else if 65 ≤ c.toNat ∧ c.toNat ≤ 70 then some (c.toNat - 55)
  else none

/-- The opening curly brace character. -/
def obraceC : Char := Char.ofNat 123

/-- The closing curly brace character. -/
def cbraceC : Char := Char.ofNat 125

/-- A JSON number literal as Python decodes it: value `mant * 10 ^ exp10`,
with `flt` recording whether the literal had a fraction or exponent part and
therefore decodes to a Python `float` rather than an `int`.  The value is exact
where Python would round to the nearest binary float; every number a claim
compares is a small integer, where the two agree. -/
structure JNum where
  mant : Int
  exp10 : Int
  flt : Bool
deriving DecidableEq

/-- A `JNum` denoting a Python int. -/
def jint (n : Int) : JNum := ⟨n, 0, false⟩

/-- Numeric value of a decoded JSON number. -/
def jnumQ (n : JNum) : ℚ :=
  if 0 ≤ n.exp10 then ((n.mant * (10 : Int) ^ n.exp10.toNat : Int) : ℚ)
  else (n.mant : ℚ) / (((10 : Int) ^ (-n.exp10).toNat : Int) : ℚ)

/-- The integer a decoded JSON number denotes, when it denotes one exactly. -/
def jnumInt (n : JNum) : Option Int :=
  if 0 ≤ n.exp10 then some (n.mant * (10 : Int) ^ n.exp10.toNat)
  else
    let d := (10 : Int) ^ (-n.exp10).toNat
    if n.mant % d = 0 then some (n.mant / d) else none

/-- Python values produced by `json.loads`, plus the `NaN` / `Infinity`
constants that Python's decoder accepts by default. -/
inductive JValue where
  | null
  | bool (b : Bool)
  | num (n : JNum)
  | nan
  | inf (pos : Bool)
  | str (s : String)
  | arr (elems : List JValue)
  | obj (fields : List (String × JValue))

/-- Lookup in a parsed JSON object, with Python `dict` semantics: when a key is
repeated, the later occurrence wins. -/
def objGetPairs (fields : List (String × JValue)) (k : String) : Option JValue :=
  match fields with
  | [] => none
  | (k', v) :: rest =>
    match objGetPairs rest k with
    | some w => some w
    | none => if k' = k then some v else none

/-- Skip JSON whitespace. -/
def skipWs : List Char → List Char
  | [] => []
  | c :: cs => if isJsonWs c then skipWs cs else c :: cs

/-- Decode the body of a JSON string literal (after the opening quote), with the
escapes and the strict rejection of raw control characters of Python's decoder.
A lone surrogate escape, which Python keeps as a lone surrogate code unit, is
mapped to U+FFFD since Lean characters are scalar values; no string handled by
the claims contains one. -/
def jstringChars (fuel : Nat) (cs : List Char) : Option (List Char × List Char) :=
  match fuel, cs with
  | 0, _ => none
  | _, [] => none
  | fuel + 1, c :: cs =>
    if c = '"' then some ([], cs)
    else if c = '\\' then
      match cs with
      | [] => none
      | e :: cs2 =>
        if e = '"' then (jstringChars fuel cs2).map fun p => ('"' :: p.1, p.2)
        else if e = '\\' then (jstringChars fuel cs2).map fun p => ('\\' :: p.1, p.2)
        else if e = '/' then (jstringChars fuel cs2).map fun p => ('/' :: p.1, p.2)
        else if e = 'b' then (jstringChars fuel cs2).map fun p => (Char.ofNat 8 :: p.1, p.2)
        else if e = 'f' then (jstringChars fuel cs2).map fun p => (Char.ofNat 12 :: p.1, p.2)
        else if e = 'n' then (jstringChars fuel cs2).map fun p => ('\n' :: p.1, p.2)
        else if e = 'r' then (jstringChars fuel cs2).map fun p => ('\r' :: p.1, p.2)
        else if e = 't' then (jstringChars fuel cs2).map fun p => ('\t' :: p.1, p.2)
        else if e = 'u' then
          match cs2 with
          | h1 :: h2 :: h3 :: h4 :: cs3 =>
            match hexVal h1, hexVal h2, hexVal h3, hexVal h4 with
            | some d1, some d2, some d3, some d4 =>
              let code := ((d1 * 16 + d2) * 16 + d3) * 16 + d4
              if 0xd800 ≤ code ∧ code ≤ 0xdbff then
                match cs3 with
                | '\\' :: 'u' :: g1 :: g2 :: g3 :: g4 :: cs4 =>
                  match hexVal g1, hexVal g2, hexVal g3, hexVal g4 with
                  | some e1, some e2, some e3, some e4 =>
                    let lo := ((e1 * 16 + e2) * 16 + e3) * 16 + e4
                    if 0xdc00 ≤ lo ∧ lo ≤ 0xdfff then
                      let ch := Char.ofNat (0x10000 + (code - 0xd800) * 0x400 + (lo - 0xdc00))
                      (jstringChars fuel cs4).map fun p => (ch :: p.1, p.2)
                    else
                      (jstringChars fuel cs3).map fun p => (Char.ofNat 0xfffd :: p.1, p.2)
                  | _, _, _, _ =>
                    (jstringChars fuel cs3).map fun p => (Char.ofNat 0xfffd :: p.1, p.2)
                | _ =>
                  (jstringChars fuel cs3).map fun p => (Char.ofNat 0xfffd :: p.1, p.2)
              else if 0xdc00 ≤ code ∧ code ≤ 0xdfff then
                (jstringChars fuel cs3).map fun p => (Char.ofNat 0xfffd :: p.1, p.2)
              else
                (jstringChars fuel cs3).map fun p => (Char.ofNat code :: p.1, p.2)
            | _, _, _, _ => none
          | _ => none
        else none
    else if c.val < 0x20 then none
    else (jstringChars fuel cs).map fun p => (c :: p.1, p.2)

/-- Read a maximal run of decimal digits. -/
def readDigits (cs : List Char) : List Char × List Char :=
  match cs with
  | c :: rest =>
    if isDigitCh c then
      let p := readDigits rest
      (c :: p.1, p.2)
    else ([], cs)
  | [] => ([], [])

/-- Parse a JSON number literal per the grammar of Python's decoder:
optional sign, integer part with no leading zero, optional fraction, optional
exponent.  The value is returned as an exact rational. -/
def jsonNumber (cs : List Char) : Option (JValue × List Char) :=
  let sg : Bool × List Char :=
    match cs with
    | '-' :: r => (true, r)
    | _ => (false, cs)
  match sg.2 with
  | [] => none
  | c :: _ =>
    if !isDigitCh c then none
    else
      let ip := readDigits sg.2
      if decide (1 < ip.1.length) && ip.1.headD '0' = '0' then none
      else
        let ipart : Nat := digitsVal ip.1
        let fr : Option (Nat × Nat × Bool × List Char) :=
          match ip.2 with
          | '.' :: r2 =>
            let fds := readDigits r2
            if fds.1.isEmpty then none
            else some (digitsVal fds.1, fds.1.length, true, fds.2)
          | r2 => some (0, 0, false, r2)
        match fr with
        | none => none
        | some (fval, flen, hasFrac, r3) =>
          let ex : Option (Int × Bool × List Char) :=
            match r3 with
            | 'e' :: r4 | 'E' :: r4 =>
              let es : Bool × List Char :=
                match r4 with
                | '-' :: r5 => (true, r5)
                | '+' :: r5 => (false, r5)
                | _ => (false, r4)
              let eds := readDigits es.2
              if eds.1.isEmpty then none
              else some ((if es.1 then -(digitsVal eds.1 : Int) else (digitsVal eds.1 : Int)), true, eds.2)
            | r4 => some (0, false, r4)
          match ex with
          | none => none
          | some (e, hasExp, rest) =>
            let mant : Int := (ipart * 10 ^ flen + fval : Nat)
            some (.num ⟨if sg.1 then -mant else mant, e - (flen : Int), hasFrac || hasExp⟩, rest)

mutual

/-- Parse one JSON value (Python `json.loads` grammar, including the `NaN` and
`Infinity` constants accepted by default).  Fuel only bounds nesting depth and
is chosen large enough never to run out (CPython would instead hit its
recursion limit on absurdly deep nesting; that limit is not modelled). -/
def parseVal : Nat → List Char → Option (JValue × List Char)
  | 0, _ => none
  | fuel + 1, cs =>
    match skipWs cs with
    | [] => none
    | 'n' :: 'u' :: 'l' :: 'l' :: r => some (.null, r)
    | 't' :: 'r' :: 'u' :: 'e' :: r => some (.bool true, r)
    | 'f' :: 'a' :: 'l' :: 's' :: 'e' :: r => some (.bool false, r)
    | 'N' :: 'a' :: 'N' :: r => some (.nan, r)
    | 'I' :: 'n' :: 'f' :: 'i' :: 'n' :: 'i' :: 't' :: 'y' :: r => some (.inf true, r)
    | '-' :: 'I' :: 'n' :: 'f' :: 'i' :: 'n' :: 'i' :: 't' :: 'y' :: r => some (.inf false, r)
    | '"' :: r => (jstringChars (r.length + 1) r).map fun p => (.str ⟨p.1⟩, p.2)
    | '[' :: r =>
      match skipWs r with
      | ']' :: r2 => some (.arr [], r2)
      | r2 => (parseItems fuel r2).map fun p => (.arr p.1, p.2)
    | c :: r =>
      if c = obraceC then
        match skipWs r with
        | d :: r2 =>
          if d = cbraceC then some (.obj [], r2)
          else (parseMembers fuel (d :: r2)).map fun p => (.obj p.1, p.2)
        | [] => none
      else jsonNumber (c :: r)

/-- Parse the comma-separated items of a JSON array, up to the closing bracket. -/
def parseItems : Nat → List Char → Option (List JValue × List Char)
  | 0, _ => none
  | fuel + 1, cs =>
    match parseVal fuel cs with
    | none => none
    | some (v, r) =>
      match skipWs r with
      | ',' :: r2 =>
        (parseItems fuel r2).map fun p => (v :: p.1, p.2)
      | ']' :: r2 => some ([v], r2)
      | _ => none

/-- Parse the comma-separated members of a JSON object, up to the closing brace. -/
def parseMembers : Nat → List Char → Option (List (String × JValue) × List Char)
  | 0, _ => none
  | fuel + 1, cs =>
    match skipWs cs with
    | '"' :: r =>
      match jstringChars (r.length + 1) r with
      | none => none
      | some (k, r1) =>
        match skipWs r1 with
        | ':' :: r2 =>
          match parseVal fuel r2 with
          | none => none
          | some (v, r3) =>
            match skipWs r3 with
            | ',' :: r4 =>
              (parseMembers fuel r4).map fun p => ((⟨k⟩, v) :: p.1, p.2)
            | d :: r4 =>
              if d = cbraceC then some ([(⟨k⟩, v)], r4)
              else none
            | [] => none
        | _ => none
    | _ => none

end

/-- Python `json.loads`: parse exactly one JSON document with optional
surrounding whitespace; `none` models a raised `json.JSONDecodeError`. -/
def jsonParse (cs : List Char) : Option JValue :=
  match parseVal (2 * cs.length + 4) cs with
  | some (v, rest) => if skipWs rest = [] then some v else none
  | none => none

/-- Lowercase hexadecimal digit, as used by `json.dumps` unicode escapes. -/
def hexDigitCh (n : Nat) : Char :=
  match n with
  | 0 => '0' | 1 => '1' | 2 => '2' | 3 => '3' | 4 => '4' | 5 => '5' | 6 => '6'
  | 7 => '7' | 8 => '8' | 9 => '9' | 10 => 'a' | 11 => 'b' | 12 => 'c'
  | 13 => 'd' | 14 => 'e' | _ => 'f'

/-- Four-digit lowercase hex rendering of a code unit. -/
def hex4 (n : Nat) : List Char :=
  [hexDigitCh (n / 4096 % 16), hexDigitCh (n / 256 % 16),
   hexDigitCh (n / 16 % 16), hexDigitCh (n % 16)]

/-- Escape one character as Python `json.dumps` does with its default
`ensure_ascii=True`: named escapes, `\uXXXX` for other control or non-ASCII
characters, surrogate pairs beyond the BMP. -/
def escJ (c : Char) : List Char :=
  if c = '"' then ['\\', '"']
  else if c = '\\' then ['\\', '\\']
  else if c = '\n' then ['\\', 'n']
  else if c = '\r' then ['\\', 'r']
  else if c = '\t' then ['\\', 't']
  else if c.toNat = 8 then ['\\', 'b']
  else if c.toNat = 12 then ['\\', 'f']
  else if c.toNat < 0x20 || 0x7f ≤ c.toNat then
    if c.toNat ≤ 0xffff then '\\' :: 'u' :: hex4 c.toNat
    else
      let v := c.toNat - 0x10000
      ('\\' :: 'u' :: hex4 (0xd800 + v / 0x400)) ++ ('\\' :: 'u' :: hex4 (0xdc00 + v % 0x400))
  else [c]

/-- Decimal digits of a natural number, most significant first. -/
def decDigits (fuel n : Nat) : List Char :=
  match fuel with
  | 0 => []
  | fuel + 1 =>
    if n < 10 then [hexDigitCh n]
    else decDigits fuel (n / 10) ++ [hexDigitCh (n % 10)]

/-- Serialization of a JSON number.  Python ints print exactly; floats are
printed as the exact decimal the literal denoted, which agrees with Python's
shortest-repr float printing on the short decimals this service handles (the
float branch is unreachable from every claim). -/
def jdumpNum (n : JNum) : List Char :=
  let sgn : List Char := if n.mant < 0 then ['-'] else []
  let m := n.mant.natAbs
  if !n.flt then sgn ++ decDigits (m + 1) m
  else if 0 ≤ n.exp10 then
    sgn ++ decDigits (m + 1) m ++ List.replicate n.exp10.toNat '0' ++ ['.', '0']
  else
    let k := (-n.exp10).toNat
    let ds0 := decDigits (m + 1) m
    let ds := if ds0.length ≤ k then List.replicate (k + 1 - ds0.length) '0' ++ ds0 else ds0
    sgn ++ ds.take (ds.length - k) ++ '.' :: ds.drop (ds.length - k)

mutual

/-- Python `json.dumps` with its default separators, on a parsed value. -/
def jdumpVal : JValue → List Char
  | .null => "null".data
  | .bool true => "true".data
  | .bool false => "false".data
  | .num q => jdumpNum q
  | .nan => "NaN".data
  | .inf true => "Infinity".data
  | .inf false => "-Infinity".data
  | .str s => '"' :: (s.data.flatMap escJ) ++ ['"']
  | .arr [] => ['[', ']']
  | .arr (x :: xs) => '[' :: (jdumpVal x ++ jdumpItems xs) ++ [']']
  | .obj [] => [obraceC, cbraceC]
  | .obj (m :: ms) => obraceC :: (jdumpPair m ++ jdumpMembers ms) ++ [cbraceC]

/-- Remaining items of a dumped array. -/
def jdumpItems : List JValue → List Char
  | [] => []
  | x :: xs => ',' :: ' ' :: (jdumpVal x ++ jdumpItems xs)

/-- One key-value member of a dumped object. -/
def jdumpPair : String × JValue → List Char
  | (k, v) => '"' :: (k.data.flatMap escJ) ++ '"' :: ':' :: ' ' :: jdumpVal v

/-- Remaining members of a dumped object. -/
def jdumpMembers : List (String × JValue) → List Char
  | [] => []
  | m :: ms => ',' :: ' ' :: (jdumpPair m ++ jdumpMembers ms)

end

/-- String form of `json.dumps`. -/
def jsonDumpsStr (v : JValue) : String := ⟨jdumpVal v⟩

/-- Python exceptions that flow through `analyze_defects`.  `http` is FastAPI's
`HTTPException`; the others carry the text `str(e)` would produce.  For
`httpx.HTTPStatusError` (raised by `raise_for_status`) the message is modelled:
the real text names the status and the request URL and never contains the
response body, which is the property the proofs rely on. -/
inductive PyExc where
  | http (status : Nat) (detail : String)
  | runtimeE (msg : String)
  | httpStatusE (status : Nat)
  | jsonDecodeE (msg : String)
  | attrE (msg : String)
  | typeE (msg : String)
  | keyE (msg : String)
  | indexE (msg : String)
  | validationE (msg : String)
  | requestE (msg : String)
deriving DecidableEq

/-- The text `str(e)` yields for each modelled exception. -/
def pyMessage : PyExc → String
  | .http _ d => d
  | .runtimeE m => m
  | .httpStatusE st =>
    "Error response " ++ toString st ++ " while requesting the Gemini generateContent endpoint"
  | .jsonDecodeE m => m
  | .attrE m => m
  | .typeE m => m
  | .keyE m => m
  | .indexE m => m
  | .validationE m => m
  | .requestE m => m

/-- Python type name of a parsed JSON value, used in exception texts.  A JSON
number prints as `int` when integral, matching the values the claims exercise. -/
def pyTypeName : JValue → String
  | .null => "NoneType"
  | .bool _ => "bool"
  | .num n => if n.flt then "float" else "int"
  | .nan => "float"
  | .inf _ => "float"
  | .str _ => "str"
  | .arr _ => "list"
  | .obj _ => "dict"

/-- Python truthiness of a parsed JSON value. -/
def pyTruthy : JValue → Bool
  | .null => false
  | .bool b => b
  | .num n => decide (n.mant ≠ 0)
  | .nan => true
  | .inf _ => true
  | .str s => !s.data.isEmpty
  | .arr xs => !xs.isEmpty
  | .obj fs => !fs.isEmpty

/-- Python `value.get(key, default)`: defined on `dict`, an `AttributeError`
on every other value. -/
def pyGetDefault (v : JValue) (k : String) (d : JValue) : Except PyExc JValue :=
  match v with
  | .obj fs => .ok ((objGetPairs fs k).getD d)
  | _ => .error (.attrE ("'" ++ pyTypeName v ++ "' object has no attribute 'get'"))

/-- Python `value[0]`. -/
def pyIndexZero (v : JValue) : Except PyExc JValue :=
  match v with
  | .arr (x :: _) => .ok x
  | .arr [] => .error (.indexE "list index out of range")
  | .str s =>
    match s.data with
    | c :: _ => .ok (.str ⟨[c]⟩)
    | [] => .error (.indexE "string index out of range")
  | .obj _ => .error (.keyE "0")
  | v => .error (.typeE ("'" ++ pyTypeName v ++ "' object is not subscriptable"))

/-- First-occurrence key order of a Python dict built from these pairs (later
duplicates update the value but keep the original position). -/
def dictKeyOrder (fields : List (String × JValue)) : List String :=
  match fields with
  | [] => []
  | (k, _) :: rest =>
    k :: (dictKeyOrder rest).filter (fun k' => k' ≠ k)

/-- Python iteration over a parsed JSON value: lists yield elements, strings
yield one-character strings, dicts yield their keys; other values raise
`TypeError`. -/
def pyIterate (v : JValue) : Except PyExc (List JValue) :=
  match v with
  | .arr xs => .ok xs
  | .str s => .ok (s.data.map fun c => JValue.str ⟨[c]⟩)
  | .obj fs => .ok ((dictKeyOrder fs).map JValue.str)
  | v => .error (.typeE ("'" ++ pyTypeName v ++ "' object is not iterable"))

/-- List traversal with exception propagation, the semantics of a Python list
comprehension whose body may raise. -/
def mapExcept (f : α → Except PyExc β) : List α → Except PyExc (List β)
  | [] => .ok []
  | x :: xs =>
    match f x with
    | .error e => .error e
    | .ok y =>
      match mapExcept f xs with
      | .error e => .error e
      | .ok ys => .ok (y :: ys)

/-- Validation of a pydantic `str` field from a JSON-derived value.  Pydantic
v2 accepts only actual strings here. -/
def pydStrJ (v : JValue) : Except PyExc String :=
  match v with
  | .str s => .ok s
  | _ => .error (.validationE "Input should be a valid string")

/-- Validation of a pydantic `float` field from a JSON-derived value: ints and
floats (including the `nan`/`inf` constants, here collapsed onto rationals —
no claim compares such a value) are accepted, booleans and the exotic lax
string coercion are not modelled and rejected. -/
def pydFloatJ (v : JValue) : Except PyExc ℚ :=
  match v with
  | .num n => .ok (jnumQ n)
  | _ => .error (.validationE "Input should be a valid number")

/-- Validation of a pydantic `int` field from a JSON-derived value: ints and
integral floats are accepted, non-integral numbers and other types rejected
(the lax numeric-string coercion is not modelled; no claim exercises it). -/
def pydIntJ (v : JValue) : Except PyExc Int :=
  match v with
  | .num n =>
    match jnumInt n with
    | some m => .ok m
    | none => .error (.validationE "Input should be a valid integer")
  | _ => .error (.validationE "Input should be a valid integer")

/-- The `DefectResult` pydantic model of the source. -/
structure DefectResult where
  defect_type : String
  confidence : ℚ
  severity : String
  description : String
deriving DecidableEq

/-- Construction `DefectResult(**defect)`: `**` demands a mapping, then each
declared field is required and validated; extra keys are ignored (pydantic v2
default). -/
def toDefectResult (v : JValue) : Except PyExc DefectResult :=
  match v with
  | .obj fs => do
    let dt ← match objGetPairs fs "defect_type" with
      | some x => pydStrJ x
      | none => .error (.validationE "defect_type: Field required")
    let conf ← match objGetPairs fs "confidence" with
      | some x => pydFloatJ x
      | none => .error (.validationE "confidence: Field required")
    let sev ← match objGetPairs fs "severity" with
      | some x => pydStrJ x
      | none => .error (.validationE "severity: Field required")
    let desc ← match objGetPairs fs "description" with
      | some x => pydStrJ x
      | none => .error (.validationE "description: Field required")
    .ok ⟨dt, conf, sev, desc⟩
  | _ => .error (.typeE "argument after ** must be a mapping")

/-- Naive datetimes as `datetime.datetime` stores them. -/
structure Datetime where
  year : Nat
  month : Nat
  day : Nat
  hour : Nat
  minute : Nat
  second : Nat
  microsecond : Nat
deriving DecidableEq

/-- Gregorian leap-year rule, as in the `datetime` module. -/
def isLeap (y : Nat) : Bool :=
  (y % 4 = 0 && y % 100 ≠ 0) || y % 400 = 0

/-- Days in a month, as validated by `datetime`. -/
def daysInMonth (y m : Nat) : Nat :=
  if m = 2 then (if isLeap y then 29 else 28)
  else if m = 4 ∨ m = 6 ∨ m = 9 ∨ m = 11 then 30
  else 31

/-- Range validity of a datetime, the invariant `datetime.datetime` enforces. -/
def validDtB (t : Datetime) : Bool :=
  1 ≤ t.year && t.year ≤ 9999 && 1 ≤ t.month && t.month ≤ 12 &&
  1 ≤ t.day && t.day ≤ daysInMonth t.year t.month &&
  t.hour ≤ 23 && t.minute ≤ 59 && t.second ≤ 59 && t.microsecond ≤ 999999

/-- Python datetime comparison: lexicographic on the components. -/
def dtLtB (a b : Datetime) : Bool :=
  a.year < b.year || (a.year = b.year && (
  a.month < b.month || (a.month = b.month && (
  a.day < b.day || (a.day = b.day && (
  a.hour < b.hour || (a.hour = b.hour && (
  a.minute < b.minute || (a.minute = b.minute && (
  a.second < b.second || (a.second = b.second &&
  a.microsecond < b.microsecond)))))))))))

/-- Zero-padded fixed-width decimal rendering, most significant digit first. -/
def padDec : Nat → Nat → List Char
  | 0, _ => []
  | w + 1, n => hexDigitCh (n / 10 ^ w % 16) :: padDec w (n % 10 ^ w)

/-- Characters of `datetime.isoformat()`: `YYYY-MM-DDTHH:MM:SS`, with a
six-digit `.ffffff` part exactly when the microsecond field is nonzero. -/
def isoChars (t : Datetime) : List Char :=
  padDec 4 t.year ++ '-' :: (padDec 2 t.month ++ '-' :: (padDec 2 t.day ++
  'T' :: (padDec 2 t.hour ++ ':' :: (padDec 2 t.minute ++ ':' :: (padDec 2 t.second ++
  (if t.microsecond = 0 then [] else '.' :: padDec 6 t.microsecond))))))

/-- String form of `datetime.isoformat()`. -/
def isoformat (t : Datetime) : String := ⟨isoChars t⟩

/-- Read exactly `w` decimal digits as a number. -/
def readFixed : Nat → List Char → Option (Nat × List Char)
  | 0, cs => some (0, cs)
  | _ + 1, [] => none
  | w + 1, c :: cs =>
    if isDigitCh c then
      (readFixed w cs).map fun p => ((c.toNat - 48) * 10 ^ w + p.1, p.2)
    else none

/-- Expect one specific character at the head. -/
def expectCh (c : Char) : List Char → Option (List Char)
  | d :: r => if d = c then some r else none
  | [] => none

/-- The optional fractional-seconds part of an isoformat string: empty, or a
dot followed by digits, any digits beyond six truncated, fewer than six padded
(as CPython scales the fraction to microseconds). -/
def fracPart : List Char → Option Nat
  | [] => some 0
  | c :: r7 =>
    if c = '.' then
      let ds := r7.takeWhile isDigitCh
      let rest := r7.dropWhile isDigitCh
      if ds.isEmpty || !rest.isEmpty then none
      else some (digitsVal (ds.take 6 ++ List.replicate (6 - ds.length) '0'))
    else none

/-- Model of `datetime.fromisoformat` restricted to the complete
`YYYY-MM-DD?HH:MM:SS[.f+]` forms (any single separator character between date
and time, fraction handled by `fracPart`, range validation as in CPython).
Timezone suffixes and the abbreviated time forms, which no document written by
this service produces, are not modelled and are rejected. -/
def fromIso (s : String) : Option Datetime :=
  match readFixed 4 s.data with
  | none => none
  | some (y, r0) =>
    match expectCh '-' r0 with
    | none => none
    | some r1 =>
      match readFixed 2 r1 with
      | none => none
      | some (mo, r2) =>
        match expectCh '-' r2 with
        | none => none
        | some r3 =>
          match readFixed 2 r3 with
          | none => none
          | some (d, r4) =>
            match r4 with
            | [] => none
            | _ :: r5 =>
              match readFixed 2 r5 with
              | none => none
              | some (h, r6) =>
                match expectCh ':' r6 with
                | none => none
                | some r7 =>
                  match readFixed 2 r7 with
                  | none => none
                  | some (mi, r8) =>
                    match expectCh ':' r8 with
                    | none => none
                    | some r9 =>
                      match readFixed 2 r9 with
                      | none => none
                      | some (sec, r10) =>
                        match fracPart r10 with
                        | none => none
                        | some mic =>
                          if validDtB ⟨y, mo, d, h, mi, sec, mic⟩ then
                            some ⟨y, mo, d, h, mi, sec, mic⟩
                          else none

/-- The base64 alphabet of RFC 4648, used by `base64.b64encode`. -/
def b64Alphabet : List Char :=
  "ABCDEFGHIJKLMNOPQRSTUVWXYZabcdefghijklmnopqrstuvwxyz0123456789+/".data

/-- Character for a 6-bit group. -/
def b64Ch (n : Nat) : Char := b64Alphabet.getD n '='

/-- Characters of `base64.b64encode(bytes)` with `=` padding. -/
def base64Chars : List UInt8 → List Char
  | [] => []
  | [a] =>
    let x := a.toNat
    [b64Ch (x / 4), b64Ch (x % 4 * 16), '=', '=']
  | [a, b] =>
    let x := a.toNat * 256 + b.toNat
    [b64Ch (x / 1024), b64Ch (x / 16 % 64), b64Ch (x % 16 * 4), '=']
  | a :: b :: c :: rest =>
    let x := a.toNat * 65536 + b.toNat * 256 + c.toNat
    b64Ch (x / 262144) :: b64Ch (x / 4096 % 64) :: b64Ch (x / 64 % 64) :: b64Ch (x % 64) ::
      base64Chars rest

/-- The string `base64.b64encode(contents).decode("utf-8")` of the handler. -/
def base64Encode (bs : List UInt8) : String := ⟨base64Chars bs⟩

/-- The `AnalysisResult` pydantic model of the source.  The `id` and
`upload_time` default factories (`uuid4`, `utcnow`) are supplied by the
environment at construction time. -/
structure AnalysisResult where
  id : String
  filename : String
  upload_time : Datetime
  total_defects : Int
  defects_found : List DefectResult
  analysis_complete : Bool
  image_base64 : Option String
deriving DecidableEq

/-- The `AnalysisResponse` pydantic model of the source. -/
structure AnalysisResponse where
  success : Bool
  message : String
  analysis : Option AnalysisResult
deriving DecidableEq

/-- A multipart upload as the handler sees it: name, declared content type and
raw bytes. -/
structure UploadFile where
  filename : String
  content_type : String
  contents : List UInt8
deriving DecidableEq

/-- Outcome of the single outbound HTTP POST of `send_message`: either a
response (status and body text) or a transport failure. -/
inductive Upstream where
  | response (status : Nat) (body : String)
  | netError (msg : String)
deriving DecidableEq

/-- Per-request environment: configured API key (`GOOGLE_API_KEY`), upstream
behaviour, the uuid that `uuid4` will produce and the time `utcnow` will
report. -/
structure Env where
  apiKey : Option String
  upstream : Upstream
  freshId : String
  now : Datetime
deriving DecidableEq

/-- The `RuntimeError` message of `send_message` for a leaked-key block. -/
def leakedKeyReplyMsg : String :=
  "Your Gemini API key was reported as leaked and is blocked. Please generate a new key and update GOOGLE_API_KEY."

/-- Join a list of strings with newlines, as `"\n".join(texts)`. -/
def joinNl : List String → String
  | [] => ""
  | [s] => s
  | s :: rest => s ++ "\n" ++ joinNl rest

/-- Extraction of the reply text from the Gemini response envelope: the `text`
parts of the first candidate joined with newlines, falling back to
`json.dumps(data)` whenever the envelope lacks the expected shape. -/
def extractText (data : JValue) : Except PyExc String :=
  match data with
  | .obj fs =>
    match objGetPairs fs "candidates" with
    | some cands =>
      if pyTruthy cands then
        match pyIndexZero cands with
        | .error e => .error e
        | .ok cand =>
          match pyGetDefault cand "content" (.obj []) with
          | .error e => .error e
          | .ok content =>
            match pyGetDefault content "parts" (.arr []) with
            | .error e => .error e
            | .ok parts =>
              match pyIterate parts with
              | .error e => .error e
              | .ok items =>
                let texts := items.filterMap fun p =>
                  match p with
                  | .obj pfs => objGetPairs pfs "text"
                  | _ => none
                if texts.isEmpty then .ok (jsonDumpsStr data)
                else
                  match mapExcept (fun t =>
                    match t with
                    | .str s => .ok s
                    | t => .error (.typeE ("sequence item 0: expected str instance, " ++ pyTypeName t ++ " found"))) texts with
                  | .error e => .error e
                  | .ok strs => .ok (joinNl strs)
      else .ok (jsonDumpsStr data)
    | none => .ok (jsonDumpsStr data)
  | _ => .ok (jsonDumpsStr data)

/-- `LlmChat.send_message`: check the key, perform the single POST, classify a
403 body that mentions the leaked-key marker, raise for any other non-2xx
status, decode the JSON envelope and extract the reply text. -/
def sendMessage (apiKey : Option String) (up : Upstream) : Except PyExc String :=
  if (apiKey.getD "").isEmpty then .error (.runtimeE "No API key provided for Gemini.")
  else
    match up with
    | .netError m => .error (.requestE m)
    | .response status body =>
      if status = 403 && pyContains "reported as leaked" body then
        .error (.runtimeE leakedKeyReplyMsg)
      else if status < 200 || 300 ≤ status then
        .error (.httpStatusE status)
      else
        match jsonParse body.data with
        | none => .error (.jsonDecodeE "Expecting value: line 1 column 1 (char 0)")
        | some data => extractText data

/-- The fence prefix checked by the handler — seven characters. -/
def fenceHead : List Char := "```json".data

/-- The closing fence marker — three characters. -/
def fenceTail : List Char := "```".data

/-- The fence-stripping step of `analyze_defects`: `strip()`, drop a leading
7-character fence marker if present, then drop a trailing 3-character marker if
present. -/
def stripFencesL (cs : List Char) : List Char :=
  let t0 := pyStripL cs
  let t1 := if isPrefixL fenceHead t0 then t0.drop 7 else t0
  if isSuffixL fenceTail t1 then t1.take (t1.length - 3) else t1

/-- The synthetic defect dict substituted on parse failure. -/
def sentinelDefect : JValue :=
  .obj [("defect_type", .str "Analysis Error"), ("confidence", .num (jint 50)),
        ("severity", .str "Unknown"), ("description", .str "Could not parse AI response properly")]

/-- The whole fallback `analysis_data` dict substituted on parse failure. -/
def sentinelData : JValue :=
  .obj [("defects_found", .arr [sentinelDefect]), ("total_defects", .num (jint 1))]

/-- The response-parsing stage of `analyze_defects`: strip fences, `json.loads`,
and on `JSONDecodeError` substitute the sentinel dict. -/
def parseStage (response : String) : JValue :=
  match jsonParse (stripFencesL response.data) with
  | some v => v
  | none => sentinelData

/-- The sentinel defect as validated into a `DefectResult`. -/
def sentinelRecord : DefectResult :=
  { defect_type := "Analysis Error", confidence := 50, severity := "Unknown",
    description := "Could not parse AI response properly" }

/-- The list comprehension `[DefectResult(**defect) for defect in
analysis_data.get("defects_found", [])]`. -/
def buildDefects (analysis_data : JValue) : Except PyExc (List DefectResult) :=
  match pyGetDefault analysis_data "defects_found" (.arr []) with
  | .error e => .error e
  | .ok dfv =>
    match pyIterate dfv with
    | .error e => .error e
    | .ok items => mapExcept toDefectResult items

/-- The expression `analysis_data.get("total_defects", len(defects))` as
validated into the `total_defects: int` field. -/
def totalField (analysis_data : JValue) (deflen : Nat) : Except PyExc Int :=
  match pyGetDefault analysis_data "total_defects" (.num (jint deflen)) with
  | .error e => .error e
  | .ok v => pydIntJ v

/-- Values storable in a MongoDB document, as the motor driver maps Python
values. -/
inductive DbValue where
  | null
  | bool (b : Bool)
  | int (n : Int)
  | float (q : ℚ)
  | str (s : String)
  | dt (t : Datetime)
  | arr (elems : List DbValue)
  | doc (fields : List (String × DbValue))

/-- A MongoDB document: ordered field list with distinct keys as this service
writes them. -/
abbrev Document := List (String × DbValue)

/-- Field lookup in a document (later duplicates win, as in a Python dict). -/
def dbGet (fields : Document) (k : String) : Option DbValue :=
  match fields with
  | [] => none
  | (k', v) :: rest =>
    match dbGet rest k with
    | some w => some w
    | none => if k' = k then some v else none

/-- Python dict item assignment `d[k] = v`: update in place when the key
exists (keeping its position), else append. -/
def setField (fields : Document) (k : String) (v : DbValue) : Document :=
  if fields.any (fun kv => kv.1 = k) then
    fields.map fun kv => if kv.1 = k then (k, v) else kv
  else fields ++ [(k, v)]

/-- `model_dump()` of a `DefectResult`. -/
def dumpDefect (d : DefectResult) : DbValue :=
  .doc [("defect_type", .str d.defect_type), ("confidence", .float d.confidence),
        ("severity", .str d.severity), ("description", .str d.description)]

/-- `model_dump()` of an `AnalysisResult`: the seven declared fields in
declaration order, with the timestamp still a native datetime. -/
def modelDump (a : AnalysisResult) : Document :=
  [("id", .str a.id), ("filename", .str a.filename),
   ("upload_time", .dt a.upload_time), ("total_defects", .int a.total_defects),
   ("defects_found", .arr (a.defects_found.map dumpDefect)),
   ("analysis_complete", .bool a.analysis_complete),
   ("image_base64", match a.image_base64 with | some s => .str s | none => .null)]

/-- The handler's `AnalysisResult(...)` construction: generated id and
timestamp from the environment, `analysis_complete` left at its default
`True`. -/
def builtAnalysis (env : Env) (file : UploadFile) (total : Int)
    (defects : List DefectResult) : AnalysisResult :=
  { id := env.freshId, filename := file.filename, upload_time := env.now,
    total_defects := total, defects_found := defects, analysis_complete := true,
    image_base64 := some (base64Encode file.contents) }

/-- The document the handler inserts: `model_dump()` with `upload_time`
overwritten by its `isoformat()` string. -/
def insertedDoc (env : Env) (file : UploadFile) (total : Int)
    (defects : List DefectResult) : Document :=
  setField (modelDump (builtAnalysis env file total defects)) "upload_time"
    (.str (isoformat env.now))

/-- The `HTTPException(500, ...)` detail for a missing key, raised by
`create_gemini_chat` and re-raised by the handler. -/
def cfgErrorMsg : String :=
  "GOOGLE_API_KEY is not set in the environment. Please set a valid Gemini API key."

/-- The `HTTPException(500, ...)` detail when the LLM call fails with a
leaked-key message. -/
def leakedDetail : String :=
  "LLM provider (Gemini) blocked the API key because it was reported as leaked. Please generate a new API key and update GOOGLE_API_KEY in your environment."

/-- Body of `analyze_defects` up to the boundary translation: every raised
exception is returned in the error component. -/
def analyzeInner (env : Env) (file : UploadFile) (db : List Document) :
    Except PyExc (AnalysisResponse × List Document) :=
  if !(isPrefixL "image/".data file.content_type.data) then
    .error (.http 400 "Only image files are supported")
  else if (env.apiKey.getD "").isEmpty then
    .error (.http 500 cfgErrorMsg)
  else
    match sendMessage env.apiKey env.upstream with
    | .error e =>
      if pyContains "reported as leaked" (pyMessage e) then
        .error (.http 500 leakedDetail)
      else
        .error (.http 500 ("Analysis failed while calling LLM: " ++ pyMessage e))
    | .ok response =>
      match buildDefects (parseStage response) with
      | .error e => .error e
      | .ok defects =>
        match totalField (parseStage response) defects.length with
        | .error e => .error e
        | .ok total =>
          .ok ({ success := true,
                 message := "Analysis complete. Found " ++ toString total ++ " defects.",
                 analysis := some (builtAnalysis env file total defects) },
               db ++ [insertedDoc env file total defects])

/-- `POST /api/analyze`: the handler with its boundary `except` clauses —
`HTTPException` re-raised as its own status and detail, any other exception
translated to a 500 with the `Analysis failed:` detail.  The pair's second
component is the database after the request. -/
def analyzeDefects (env : Env) (file : UploadFile) (db : List Document) :
    Except (Nat × String) AnalysisResponse × List Document :=
  match analyzeInner env file db with
  | .ok (resp, db') => (.ok resp, db')
  | .error (.http st d) => (.error (st, d), db)
  | .error e => (.error (500, "Analysis failed: " ++ pyMessage e), db)

/-- Relative sort order of BSON types, the cross-type ordering MongoDB uses. -/
def dbTypeRank : DbValue → Nat
  | .null => 0
  | .int _ => 1
  | .float _ => 1
  | .str _ => 2
  | .doc _ => 3
  | .arr _ => 4
  | .bool _ => 5
  | .dt _ => 6

/-- MongoDB comparison of two stored values.  Strings compare bytewise (equal
to code-point order on the ASCII strings this service stores), numbers
numerically, datetimes chronologically.  Containers never occur as an
`upload_time` sort key here, so their element-wise BSON order is collapsed. -/
def dbValCmp (a b : DbValue) : Ordering :=
  if dbTypeRank a < dbTypeRank b then .lt
  else if dbTypeRank b < dbTypeRank a then .gt
  else
    match a, b with
    | .int x, .int y => compare x y
    | .int x, .float y => compare (x : ℚ) y
    | .float x, .int y => compare x (y : ℚ)
    | .float x, .float y => compare x y
    | .str x, .str y => cmpChars x.data y.data
    | .bool x, .bool y => compare (cond x 1 0 : Nat) (cond y 1 0)
    | .dt x, .dt y => if dtLtB x y then .lt else if dtLtB y x then .gt else .eq
    | _, _ => .eq

/-- The sort key of `sort("upload_time", -1)`; a missing field sorts lowest. -/
def sortKey (d : Document) : DbValue :=
  (dbGet d "upload_time").getD .null

/-- Insert into a descending-sorted list of documents. -/
def insertDesc (x : Document) : List Document → List Document
  | [] => [x]
  | y :: ys =>
    if dbValCmp (sortKey x) (sortKey y) = .gt then x :: y :: ys
    else y :: insertDesc x ys

/-- The cursor's documents after `sort("upload_time", -1)` (keys are unique in
every database the claims consider, so any correct sort yields this order). -/
def sortDesc : List Document → List Document
  | [] => []
  | x :: xs => insertDesc x (sortDesc xs)

/-- Validation of a pydantic `str` field from a stored value. -/
def pydDbStr (v : DbValue) : Except PyExc String :=
  match v with
  | .str s => .ok s
  | _ => .error (.validationE "Input should be a valid string")

/-- Validation of a pydantic `int` field from a stored value. -/
def pydDbInt (v : DbValue) : Except PyExc Int :=
  match v with
  | .int n => .ok n
  | .float q => if q.den = 1 then .ok q.num else .error (.validationE "Input should be a valid integer")
  | _ => .error (.validationE "Input should be a valid integer")

/-- Validation of a pydantic `float` field from a stored value. -/
def pydDbFloat (v : DbValue) : Except PyExc ℚ :=
  match v with
  | .int n => .ok (n : ℚ)
  | .float q => .ok q
  | _ => .error (.validationE "Input should be a valid number")

/-- Validation of a pydantic `bool` field from a stored value. -/
def pydDbBool (v : DbValue) : Except PyExc Bool :=
  match v with
  | .bool b => .ok b
  | _ => .error (.validationE "Input should be a valid boolean")

/-- Validation of one stored defect dict into a `DefectResult`. -/
def pydDbDefect (v : DbValue) : Except PyExc DefectResult :=
  match v with
  | .doc fs => do
    let dt ← match dbGet fs "defect_type" with
      | some x => pydDbStr x
      | none => .error (.validationE "defect_type: Field required")
    let conf ← match dbGet fs "confidence" with
      | some x => pydDbFloat x
      | none => .error (.validationE "confidence: Field required")
    let sev ← match dbGet fs "severity" with
      | some x => pydDbStr x
      | none => .error (.validationE "severity: Field required")
    let desc ← match dbGet fs "description" with
      | some x => pydDbStr x
      | none => .error (.validationE "description: Field required")
    .ok ⟨dt, conf, sev, desc⟩
  | _ => .error (.typeE "argument after ** must be a mapping")

/-- The history loop's normalization: when the stored `upload_time` is a
string, replace it by `datetime.fromisoformat` of it (a failure is the
`ValueError` the endpoint's except clause turns into a 500). -/
def normalizeDoc (d : Document) : Except PyExc Document :=
  match dbGet d "upload_time" with
  | some (.str s) =>
    match fromIso s with
    | some t => .ok (setField d "upload_time" (.dt t))
    | none => .error (.validationE ("Invalid isoformat string: " ++ s))
  | _ => .ok d

/-- `AnalysisResult(**analysis)` on a normalized stored document.  The `_id`
key MongoDB adds is extra input and ignored by pydantic; `analysis_complete`
falls back to its declared default when absent.  The `id`/`upload_time`
default factories would regenerate values for absent keys — every document this
service writes carries both keys, so absence is modelled as a validation
error. -/
def docToResult (d0 : Document) : Except PyExc AnalysisResult :=
  match normalizeDoc d0 with
  | .error e => .error e
  | .ok d =>
    match dbGet d "id" with
    | none => .error (.validationE "id: Field required")
    | some xi =>
      match pydDbStr xi with
      | .error e => .error e
      | .ok i =>
        match dbGet d "filename" with
        | none => .error (.validationE "filename: Field required")
        | some xf =>
          match pydDbStr xf with
          | .error e => .error e
          | .ok fn =>
            match dbGet d "upload_time" with
            | some (.dt ut) =>
              match dbGet d "total_defects" with
              | none => .error (.validationE "total_defects: Field required")
              | some xt =>
                match pydDbInt xt with
                | .error e => .error e
                | .ok td =>
                  match dbGet d "defects_found" with
                  | some (.arr xs) =>
                    match mapExcept pydDbDefect xs with
                    | .error e => .error e
                    | .ok dfs =>
                      match (match dbGet d "analysis_complete" with
                             | none => Except.ok true
                             | some xa => pydDbBool xa) with
                      | .error e => .error e
                      | .ok ac =>
                        match dbGet d "image_base64" with
                        | none => .ok ⟨i, fn, ut, td, dfs, ac, none⟩
                        | some .null => .ok ⟨i, fn, ut, td, dfs, ac, none⟩
                        | some (.str s) => .ok ⟨i, fn, ut, td, dfs, ac, some s⟩
                        | some _ =>
                          .error (.validationE "image_base64: Input should be a valid string")
                  | some _ => .error (.validationE "defects_found: Input should be a valid list")
                  | none => .error (.validationE "defects_found: Field required")
            | some _ => .error (.validationE "upload_time: Input should be a valid datetime")
            | none => .error (.validationE "upload_time: Field required")

/-- The FastAPI default of the `limit` query parameter of `/api/history`. -/
def historyDefaultLimit : Nat := 10

/-- `GET /api/history`: sort by `upload_time` descending, take `limit`
documents, normalize timestamps and rebuild `AnalysisResult`s; any exception
becomes a 500. -/
def getHistory (limit : Nat) (db : List Document) :
    Except (Nat × String) (List AnalysisResult) :=
  match mapExcept docToResult ((sortDesc db).take limit) with
  | .ok rs => .ok rs
  | .error e => .error (500, "Failed to fetch history: " ++ pyMessage e)

/-- String form of `json.dumps`, used to build concrete test bodies. -/
def jtext (v : JValue) : String := jsonDumpsStr v

/-- A well-formed Gemini response envelope whose single part carries the given
text. -/
def envelopeBody (text : String) : String :=
  jtext (.obj [("candidates", .arr [.obj [("content",
    .obj [("parts", .arr [.obj [("text", .str text)]])])]])])

/-- A concrete uploaded image file. -/
def fileJpg : UploadFile :=
  { filename := "weld.jpg", content_type := "image/jpeg", contents := [77, 97] }

/-- A concrete non-image upload. -/
def fileTxt : UploadFile :=
  { filename := "notes.txt", content_type := "text/plain", contents := [104, 105] }

/-- A fixed generation time. -/
def dt0 : Datetime := ⟨2024, 5, 17, 12, 30, 45, 0⟩

/-- Environment in which the model replies with the given text. -/
def replyEnvOf (text : String) : Env :=
  { apiKey := some "k", upstream := .response 200 (envelopeBody text),
    freshId := "id-1", now := dt0 }

/-- Environment whose model reply is not JSON at all. -/
def envParseFail : Env := replyEnvOf "not json"

/-- Environment whose model reply is the valid JSON document `5`. -/
def envNum : Env := replyEnvOf "5"

/-- Environment whose model reply is an object whose reported total differs
from the list length. -/
def envTotal5 : Env :=
  replyEnvOf (jtext (.obj [("defects_found", .arr []), ("total_defects", .num (jint 5))]))

/-- Environment whose model reply is a fenced empty defect report. -/
def envFenced : Env :=
  replyEnvOf ("```json " ++ jtext (.obj [("defects_found", .arr []), ("total_defects", .num (jint 0))]) ++ " ```")

/-- Environment in which the upstream rejects the key as leaked. -/
def envLeaked : Env :=
  { apiKey := some "k",
    upstream := .response 403 "Your API key was reported as leaked and is blocked",
    freshId := "id-1", now := dt0 }

/-- Three analysis results with strictly increasing upload times, for the
history claims. -/
def resA : AnalysisResult :=
  { id := "a", filename := "a.jpg", upload_time := ⟨2024, 5, 17, 12, 30, 45, 0⟩,
    total_defects := 0, defects_found := [], analysis_complete := true,
    image_base64 := some "TWE=" }

/-- Second history fixture, one microsecond later. -/
def resB : AnalysisResult :=
  { id := "b", filename := "b.jpg", upload_time := ⟨2024, 5, 17, 12, 30, 45, 1⟩,
    total_defects := 1, defects_found := [sentinelRecord], analysis_complete := true,
    image_base64 := some "TWE=" }

/-- Third history fixture, one day later. -/
def resC : AnalysisResult :=
  { id := "c", filename := "c.jpg", upload_time := ⟨2024, 5, 18, 0, 0, 0, 0⟩,
    total_defects := 2, defects_found := [], analysis_complete := true,
    image_base64 := none }

/-- The document shape the handler persists for a given result. -/
def resultDoc (a : AnalysisResult) : Document :=
  setField (modelDump a) "upload_time" (.str (isoformat a.upload_time))

theorem sendOk_key {k : Option String} {up : Upstream} {r : String}
    (h : sendMessage k up = .ok r) : (k.getD "").isEmpty = false := by
  cases hk : (k.getD "").isEmpty with
  | true => unfold sendMessage at h; rw [hk] at h; simp at h
  | false => rfl

theorem analyzeInner_ok_inv (env : Env) (file : UploadFile) (db : List Document)
    (resp : AnalysisResponse) (db' : List Document)
    (h : analyzeInner env file db = .ok (resp, db')) :
    ∃ reply defects total,
      sendMessage env.apiKey env.upstream = .ok reply ∧
      buildDefects (parseStage reply) = .ok defects ∧
      totalField (parseStage reply) defects.length = .ok total ∧
      resp = { success := true,
               message := "Analysis complete. Found " ++ toString total ++ " defects.",
               analysis := some (builtAnalysis env file total defects) } ∧
      db' = db ++ [insertedDoc env file total defects] := by
  unfold analyzeInner at h
  split at h
  · exact Except.noConfusion h
  · split at h
    · exact Except.noConfusion h
    · split at h
      next e heq =>
        split at h <;> exact Except.noConfusion h
      next reply heq =>
        split at h
        · exact Except.noConfusion h
        next defects heq2 =>
          split at h
          · exact Except.noConfusion h
          next total heq3 =>
            injection h with h1
            injection h1 with h2 h3
            exact ⟨reply, defects, total, heq, heq2, heq3, h2.symm, h3.symm⟩

theorem analyzeDefects_ok_inv (env : Env) (file : UploadFile) (db : List Document)
    (resp : AnalysisResponse) (db' : List Document)
    (h : analyzeDefects env file db = (.ok resp, db')) :
    analyzeInner env file db = .ok (resp, db') := by
  unfold analyzeDefects at h
  split at h
  next resp2 db2 heq =>
    injection h with h1 h2
    injection h1 with h3
    rw [h3, h2] at heq; exact heq
  next heq => injection h with h1 _; exact Except.noConfusion h1
  next heq => injection h with h1 _; exact Except.noConfusion h1

theorem analyze_parse_fail (env : Env) (file : UploadFile) (db : List Document) (reply : String)
    (himg : isPrefixL "image/".data file.content_type.data = true)
    (hsend : sendMessage env.apiKey env.upstream = .ok reply)
    (hbad : jsonParse (stripFencesL reply.data) = none) :
    analyzeDefects env file db =
      (.ok { success := true, message := "Analysis complete. Found 1 defects.",
             analysis := some (builtAnalysis env file 1 [sentinelRecord]) },
       db ++ [insertedDoc env file 1 [sentinelRecord]]) := by
  have hkey := sendOk_key hsend
  have hparse : parseStage reply = sentinelData := by
    unfold parseStage; rw [hbad]
  have hbd : buildDefects sentinelData = .ok [sentinelRecord] := rfl
  have htf : totalField sentinelData 1 = .ok 1 := rfl
  unfold analyzeDefects analyzeInner
  rw [himg, hkey, hsend]
  simp [hparse, hbd, htf]
  rfl

/-- C5: an upload whose declared content type does not begin with `image/` is rejected
with HTTP 400 and the database is left untouched. -/
theorem c5_non_image_rejected (env : Env) (file : UploadFile) (db : List Document)
    (h : isPrefixL "image/".data file.content_type.data = false) :
    analyzeDefects env file db = (.error (400, "Only image files are supported"), db) := by
  unfold analyzeDefects analyzeInner
  rw [h]
  rfl

theorem c5_non_image_rejected_witness :
    isPrefixL "image/".data fileTxt.content_type.data = false ∧
    analyzeDefects envParseFail fileTxt [] =
      (.error (400, "Only image files are supported"), []) :=
  ⟨by decide, c5_non_image_rejected envParseFail fileTxt [] (by decide)⟩

/-- C10: every `AnalysisResult` the analyze endpoint produces has
`analysis_complete = true`, in the returned response and in the stored document alike,
including the sentinel parse-failure path. -/
theorem c10_analysis_complete (env : Env) (file : UploadFile) (db : List Document)
    (resp : AnalysisResponse) (db' : List Document) (a : AnalysisResult)
    (hres : analyzeDefects env file db = (.ok resp, db'))
    (ha : resp.analysis = some a) :
    a.analysis_complete = true ∧
    ∃ doc, db' = db ++ [doc] ∧ dbGet doc "analysis_complete" = some (.bool true) := by
  obtain ⟨reply, defects, total, hsend, hbd, htf, hresp, hdb⟩ :=
    analyzeInner_ok_inv env file db resp db' (analyzeDefects_ok_inv env file db resp db' hres)
  rw [hresp] at ha
  simp only [Option.some.injEq] at ha
  constructor
  · rw [← ha]; rfl
  · exact ⟨insertedDoc env file total defects, hdb, rfl⟩

theorem c10_analysis_complete_witness :
    (analyzeDefects envParseFail fileJpg [] =
      (.ok { success := true, message := "Analysis complete. Found 1 defects.",
             analysis := some (builtAnalysis envParseFail fileJpg 1 [sentinelRecord]) },
       [insertedDoc envParseFail fileJpg 1 [sentinelRecord]])) ∧
    (builtAnalysis envParseFail fileJpg 1 [sentinelRecord]).analysis_complete = true ∧
    ∃ doc, [insertedDoc envParseFail fileJpg 1 [sentinelRecord]] = [] ++ [doc] ∧
      dbGet doc "analysis_complete" = some (.bool true) :=
  ⟨by rfl,
   c10_analysis_complete envParseFail fileJpg []
     { success := true, message := "Analysis complete. Found 1 defects.",
       analysis := some (builtAnalysis envParseFail fileJpg 1 [sentinelRecord]) }
     [insertedDoc envParseFail fileJpg 1 [sentinelRecord]]
     (builtAnalysis envParseFail fileJpg 1 [sentinelRecord]) (by rfl) rfl⟩

/-- C9: on every successful analyze request the `image_base64` field is present and
equals the base64 encoding of exactly the uploaded bytes, both in the returned result
and in the persisted document. -/
theorem c9_image_passthrough (env : Env) (file : UploadFile) (db : List Document)
    (resp : AnalysisResponse) (db' : List Document) (a : AnalysisResult)
    (hres : analyzeDefects env file db = (.ok resp, db'))
    (ha : resp.analysis = some a) :
    a.image_base64 = some (base64Encode file.contents) ∧
    ∃ doc, db' = db ++ [doc] ∧
      dbGet doc "image_base64" = some (.str (base64Encode file.contents)) := by
  obtain ⟨reply, defects, total, hsend, hbd, htf, hresp, hdb⟩ :=
    analyzeInner_ok_inv env file db resp db' (analyzeDefects_ok_inv env file db resp db' hres)
  rw [hresp] at ha
  simp only [Option.some.injEq] at ha
  constructor
  · rw [← ha]; rfl
  · exact ⟨insertedDoc env file total defects, hdb, rfl⟩

theorem c9_image_passthrough_witness :
    (analyzeDefects envParseFail fileJpg [] =
      (.ok { success := true, message := "Analysis complete. Found 1 defects.",
             analysis := some (builtAnalysis envParseFail fileJpg 1 [sentinelRecord]) },
       [insertedDoc envParseFail fileJpg 1 [sentinelRecord]])) ∧
    (builtAnalysis envParseFail fileJpg 1 [sentinelRecord]).image_base64 =
      some (base64Encode fileJpg.contents) ∧
    ∃ doc, [insertedDoc envParseFail fileJpg 1 [sentinelRecord]] = [] ++ [doc] ∧
      dbGet doc "image_base64" = some (.str (base64Encode fileJpg.contents)) :=
  ⟨by rfl,
   c9_image_passthrough envParseFail fileJpg []
     { success := true, message := "Analysis complete. Found 1 defects.",
       analysis := some (builtAnalysis envParseFail fileJpg 1 [sentinelRecord]) }
     [insertedDoc envParseFail fileJpg 1 [sentinelRecord]]
     (builtAnalysis envParseFail fileJpg 1 [sentinelRecord]) (by rfl) rfl⟩

/-- C7: the document persisted by a successful analyze request has exactly the seven
fields id, filename, upload_time, total_defects, defects_found, analysis_complete and
image_base64 (the source's name for the spec's `image_encoded`), with `upload_time`
serialized as an ISO-8601 string. -/
theorem c7_document_shape (env : Env) (file : UploadFile) (db : List Document)
    (resp : AnalysisResponse) (db' : List Document)
    (hres : analyzeDefects env file db = (.ok resp, db')) :
    ∃ doc, db' = db ++ [doc] ∧
      doc.map Prod.fst =
        ["id", "filename", "upload_time", "total_defects", "defects_found",
         "analysis_complete", "image_base64"] ∧
      dbGet doc "upload_time" = some (.str (isoformat env.now)) := by
  obtain ⟨reply, defects, total, hsend, hbd, htf, hresp, hdb⟩ :=
    analyzeInner_ok_inv env file db resp db' (analyzeDefects_ok_inv env file db resp db' hres)
  exact ⟨insertedDoc env file total defects, hdb, rfl, rfl⟩

theorem c7_document_shape_witness :
    (analyzeDefects envParseFail fileJpg [] =
      (.ok { success := true, message := "Analysis complete. Found 1 defects.",
             analysis := some (builtAnalysis envParseFail fileJpg 1 [sentinelRecord]) },
       [insertedDoc envParseFail fileJpg 1 [sentinelRecord]])) ∧
    ∃ doc, [insertedDoc envParseFail fileJpg 1 [sentinelRecord]] = [] ++ [doc] ∧
      doc.map Prod.fst =
        ["id", "filename", "upload_time", "total_defects", "defects_found",
         "analysis_complete", "image_base64"] ∧
      dbGet doc "upload_time" = some (.str (isoformat envParseFail.now)) :=
  ⟨by rfl,
   c7_document_shape envParseFail fileJpg []
     { success := true, message := "Analysis complete. Found 1 defects.",
       analysis := some (builtAnalysis envParseFail fileJpg 1 [sentinelRecord]) }
     [insertedDoc envParseFail fileJpg 1 [sentinelRecord]] (by rfl)⟩

/-- C3: on a successful analyze request the stored `total_defects` equals the validated
model-reported `total_defects` field whenever the parsed JSON object contains it (even
when it differs from the length of `defects_found`), and equals the list length exactly
when the field is absent. -/
theorem c3_total_defects_passthrough (env : Env) (file : UploadFile) (db : List Document)
    (resp : AnalysisResponse) (db' : List Document) (a : AnalysisResult)
    (reply : String) (fs : List (String × JValue))
    (hres : analyzeDefects env file db = (.ok resp, db'))
    (ha : resp.analysis = some a)
    (hsend : sendMessage env.apiKey env.upstream = .ok reply)
    (hfs : parseStage reply = .obj fs) :
    (∀ v, objGetPairs fs "total_defects" = some v → pydIntJ v = .ok a.total_defects) ∧
    (objGetPairs fs "total_defects" = none →
      a.total_defects = (a.defects_found.length : Int)) := by
  obtain ⟨reply2, defects, total, hsend2, hbd, htf, hresp, hdb⟩ :=
    analyzeInner_ok_inv env file db resp db' (analyzeDefects_ok_inv env file db resp db' hres)
  rw [hsend] at hsend2
  injection hsend2 with hr
  rw [← hr, hfs] at htf
  rw [hresp] at ha
  simp only [Option.some.injEq] at ha
  have hat : a.total_defects = total := by rw [← ha]; rfl
  have had : a.defects_found = defects := by rw [← ha]; rfl
  have htf2 : pydIntJ ((objGetPairs fs "total_defects").getD
      (.num (jint defects.length))) = .ok total := htf
  constructor
  · intro v hv
    rw [hv] at htf2
    simp only [Option.getD] at htf2
    rw [hat]; exact htf2
  · intro hnone
    rw [hnone] at htf2
    simp only [Option.getD] at htf2
    unfold pydIntJ jnumInt jint at htf2
    simp at htf2
    rw [hat, had]
    omega

theorem c3_total_defects_passthrough_witness :
    (analyzeDefects envTotal5 fileJpg [] =
      (.ok { success := true, message := "Analysis complete. Found 5 defects.",
             analysis := some (builtAnalysis envTotal5 fileJpg 5 []) },
       [insertedDoc envTotal5 fileJpg 5 []])) ∧
    parseStage (jtext (.obj [("defects_found", .arr []), ("total_defects", .num (jint 5))])) =
      .obj [("defects_found", .arr []), ("total_defects", .num (jint 5))] ∧
    objGetPairs [("defects_found", .arr []), ("total_defects", .num (jint 5))]
      "total_defects" = some (.num (jint 5)) ∧
    pydIntJ (.num (jint 5)) = .ok (builtAnalysis envTotal5 fileJpg 5 []).total_defects ∧
    (builtAnalysis envTotal5 fileJpg 5 []).defects_found.length = 0 :=
  ⟨by rfl, by rfl, by rfl,
   (c3_total_defects_passthrough envTotal5 fileJpg []
     { success := true, message := "Analysis complete. Found 5 defects.",
       analysis := some (builtAnalysis envTotal5 fileJpg 5 []) }
     [insertedDoc envTotal5 fileJpg 5 []]
     (builtAnalysis envTotal5 fileJpg 5 [])
     (jtext (.obj [("defects_found", .arr []), ("total_defects", .num (jint 5))]))
     [("defects_found", .arr []), ("total_defects", .num (jint 5))]
     (by rfl) rfl (by rfl) (by rfl)).1 (.num (jint 5)) (by rfl),
   by rfl⟩

/-- C1 (amended): for every model reply that is not valid JSON after fence stripping the
request does not fail: exactly one synthetic `DefectResult` with defect_type
`Analysis Error`, confidence 50, severity `Unknown` and description
`Could not parse AI response properly` (the source's text — the claim's quoted
description differs, see the counterexample) is substituted, `total_defects` is 1, the
document is inserted and the request returns success with HTTP 200. -/
theorem c1_parse_failure_sentinel (env : Env) (file : UploadFile) (db : List Document)
    (reply : String)
    (himg : isPrefixL "image/".data file.content_type.data = true)
    (hsend : sendMessage env.apiKey env.upstream = .ok reply)
    (hbad : jsonParse (stripFencesL reply.data) = none) :
    analyzeDefects env file db =
      (.ok { success := true, message := "Analysis complete. Found 1 defects.",
             analysis := some (builtAnalysis env file 1 [sentinelRecord]) },
       db ++ [insertedDoc env file 1 [sentinelRecord]]) ∧
    sentinelRecord =
      { defect_type := "Analysis Error", confidence := 50, severity := "Unknown",
        description := "Could not parse AI response properly" } ∧
    (builtAnalysis env file 1 [sentinelRecord]).total_defects = 1 ∧
    (builtAnalysis env file 1 [sentinelRecord]).defects_found.length = 1 :=
  ⟨analyze_parse_fail env file db reply himg hsend hbad, rfl, rfl, rfl⟩

theorem c1_parse_failure_sentinel_witness :
    isPrefixL "image/".data fileJpg.content_type.data = true ∧
    sendMessage envParseFail.apiKey envParseFail.upstream = .ok "not json" ∧
    jsonParse (stripFencesL "not json".data) = none ∧
    analyzeDefects envParseFail fileJpg [] =
      (.ok { success := true, message := "Analysis complete. Found 1 defects.",
             analysis := some (builtAnalysis envParseFail fileJpg 1 [sentinelRecord]) },
       [insertedDoc envParseFail fileJpg 1 [sentinelRecord]]) :=
  ⟨by decide, by rfl, by rfl,
   (c1_parse_failure_sentinel envParseFail fileJpg [] "not json"
     (by decide) (by rfl) (by rfl)).1⟩

/-- C1 counterexample: at a concrete non-JSON reply the sentinel record's description is
`Could not parse AI response properly`, not the claim's `could not parse AI response`,
so the claim as stated is false. -/
theorem c1_description_counterexample :
    analyzeDefects envParseFail fileJpg [] =
      (.ok { success := true, message := "Analysis complete. Found 1 defects.",
             analysis := some (builtAnalysis envParseFail fileJpg 1 [sentinelRecord]) },
       [insertedDoc envParseFail fileJpg 1 [sentinelRecord]]) ∧
    sentinelRecord.description = "Could not parse AI response properly" ∧
    sentinelRecord.description ≠ "could not parse AI response" :=
  ⟨by rfl, rfl, by decide⟩

/-- C2 (amended): the deliberately swallowed category is exactly the JSON decode
failure: a reply on which `json.loads` fails never makes the analyze request error.
Valid JSON whose top level is not an object does error — see the counterexample. -/
theorem c2_decode_failure_swallowed (env : Env) (file : UploadFile) (db : List Document)
    (reply : String)
    (himg : isPrefixL "image/".data file.content_type.data = true)
    (hsend : sendMessage env.apiKey env.upstream = .ok reply)
    (hbad : jsonParse (stripFencesL reply.data) = none) :
    ∃ resp, (analyzeDefects env file db).1 = .ok resp ∧ resp.success = true := by
  have h := analyze_parse_fail env file db reply himg hsend hbad
  exact ⟨_, by rw [h], rfl⟩

theorem c2_decode_failure_swallowed_witness :
    isPrefixL "image/".data fileJpg.content_type.data = true ∧
    sendMessage envParseFail.apiKey envParseFail.upstream = .ok "not json" ∧
    jsonParse (stripFencesL "not json".data) = none ∧
    ∃ resp, (analyzeDefects envParseFail fileJpg []).1 = .ok resp ∧ resp.success = true :=
  ⟨by decide, by rfl, by rfl,
   c2_decode_failure_swallowed envParseFail fileJpg [] "not json" (by decide) (by rfl) (by rfl)⟩

/-- C2 counterexample: the reply `5` is valid JSON, yet the analyze request fails with
HTTP 500 (`AttributeError` on `analysis_data.get`), so the response-parsing stage can
propagate a hard failure for malformed model output, refuting the claim as stated. -/
theorem c2_nonobject_reply_errors :
    sendMessage envNum.apiKey envNum.upstream = .ok "5" ∧
    jsonParse (stripFencesL "5".data) = some (.num (jint 5)) ∧
    (analyzeDefects envNum fileJpg []).1 =
      .error (500, "Analysis failed: 'int' object has no attribute 'get'") :=
  ⟨by rfl, by rfl, by rfl⟩

theorem status_msg_no_marker :
    ∀ st : Nat, st < 1000 →
      pyContains "reported as leaked" (pyMessage (.httpStatusE st)) = false := by
  decide

theorem leaked_ne_generic (st : Nat) :
    "Analysis failed while calling LLM: " ++ pyMessage (.httpStatusE st) ≠ leakedDetail := by
  intro h
  have h2 : ("Analysis failed while calling LLM: " ++ pyMessage (.httpStatusE st)).data.headD ' '
      = leakedDetail.data.headD ' ' := by rw [h]
  rw [String.data_append] at h2
  have hA : ("Analysis failed while calling LLM: ".data ++
      (pyMessage (.httpStatusE st)).data).headD ' ' = 'A' := by
    have hc : "Analysis failed while calling LLM: ".data
        = 'A' :: "nalysis failed while calling LLM: ".data := by decide
    rw [hc]; rfl
  rw [hA] at h2
  have hL : leakedDetail.data.headD ' ' = 'L' := by decide
  rw [hL] at h2
  exact absurd h2 (by decide)

/-- C6: a 403 upstream response whose body contains the leaked-key marker surfaces as
HTTP 500 with the fixed key-rotation detail; any other non-success upstream status
(bounded by 1000, as HTTP status lines carry three digits) surfaces as the generic
LLM-failure detail, which is distinct from the key-rotation detail. -/
theorem c6_leaked_key_classification (env : Env) (file : UploadFile) (db : List Document)
    (himg : isPrefixL "image/".data file.content_type.data = true)
    (hkey : (env.apiKey.getD "").isEmpty = false) :
    (∀ body, env.upstream = .response 403 body →
      pyContains "reported as leaked" body = true →
      analyzeDefects env file db = (.error (500, leakedDetail), db)) ∧
    pyContains "generate a new API key" leakedDetail = true ∧
    (∀ status body, env.upstream = .response status body → status < 1000 →
      (status < 200 ∨ 300 ≤ status) →
      ¬(status = 403 ∧ pyContains "reported as leaked" body = true) →
      analyzeDefects env file db =
        (.error (500, "Analysis failed while calling LLM: " ++ pyMessage (.httpStatusE status)), db) ∧
      "Analysis failed while calling LLM: " ++ pyMessage (.httpStatusE status) ≠ leakedDetail) := by
  refine ⟨?_, by decide, ?_⟩
  · intro body hup hmark
    have hsend : sendMessage env.apiKey env.upstream = .error (.runtimeE leakedKeyReplyMsg) := by
      unfold sendMessage
      rw [hkey, hup]
      simp [hmark]
    unfold analyzeDefects analyzeInner
    rw [himg, hkey, hsend]
    simp
    rfl
  · intro status body hup hlt hns hnot
    have hcond : (decide (status = 403) && pyContains "reported as leaked" body) = false := by
      by_cases h403 : status = 403
      · cases hm : pyContains "reported as leaked" body with
        | true => exact absurd ⟨h403, hm⟩ hnot
        | false => simp [hm]
      · simp [h403]
    have hsend : sendMessage env.apiKey env.upstream = .error (.httpStatusE status) := by
      unfold sendMessage
      rw [hkey, hup]
      simp only [hcond, Bool.false_eq_true, if_false]
      have : (decide (status < 200) || decide (300 ≤ status)) = true := by
        rcases hns with h | h <;> simp [h]
      simp [this]
    refine ⟨?_, leaked_ne_generic status⟩
    unfold analyzeDefects analyzeInner
    rw [himg, hkey, hsend]
    simp [status_msg_no_marker status hlt]

theorem c6_leaked_key_classification_witness :
    isPrefixL "image/".data fileJpg.content_type.data = true ∧
    (envLeaked.apiKey.getD "").isEmpty = false ∧
    analyzeDefects envLeaked fileJpg [] = (.error (500, leakedDetail), []) :=
  ⟨by decide, by decide,
   (c6_leaked_key_classification envLeaked fileJpg [] (by decide) (by decide)).1
     "Your API key was reported as leaked and is blocked" rfl (by decide)⟩

theorem dropWhile_all_append (p : Char → Bool) (xs ys : List Char)
    (h : ∀ c ∈ xs, p c = true) :
    List.dropWhile p (xs ++ ys) = List.dropWhile p ys := by
  induction xs with
  | nil => rfl
  | cons a as ih =>
    have ha : p a = true := h a (by simp)
    simp only [List.cons_append, List.dropWhile_cons, ha, if_true]
    exact ih (fun c hc => h c (by simp [hc]))

theorem isPrefixL_self_append (l t : List Char) : isPrefixL l (l ++ t) = true := by
  induction l with
  | nil => rfl
  | cons a as ih => simp [isPrefixL, ih]

theorem pyStripL_sandwich (w1 mid w2 : List Char)
    (hw1 : ∀ c ∈ w1, isPySpace c = true) (hw2 : ∀ c ∈ w2, isPySpace c = true)
    (hhead : ∃ c t, mid = c :: t ∧ isPySpace c = false)
    (hlast : ∃ t c, mid = t ++ [c] ∧ isPySpace c = false) :
    pyStripL (w1 ++ mid ++ w2) = mid := by
  obtain ⟨c, t, hct, hc⟩ := hhead
  obtain ⟨t2, d, htd, hd⟩ := hlast
  unfold pyStripL
  have h1 : List.dropWhile isPySpace (w1 ++ mid ++ w2) = mid ++ w2 := by
    rw [List.append_assoc, dropWhile_all_append _ _ _ hw1, hct]
    simp [List.dropWhile_cons, hc]
  rw [h1]
  have h2 : (mid ++ w2).reverse = w2.reverse ++ mid.reverse := by
    rw [List.reverse_append]
  rw [h2]
  have h3 : List.dropWhile isPySpace (w2.reverse ++ mid.reverse) = mid.reverse := by
    rw [dropWhile_all_append _ _ _ (fun c hc2 => hw2 c (List.mem_reverse.mp hc2)), htd]
    simp [List.reverse_append, List.dropWhile_cons, hd]
  rw [h3, List.reverse_reverse]

theorem stripFencesL_fenced (w1 w2 s : List Char)
    (hw1 : ∀ c ∈ w1, isPySpace c = true) (hw2 : ∀ c ∈ w2, isPySpace c = true) :
    stripFencesL (w1 ++ (fenceHead ++ s ++ fenceTail) ++ w2) = s := by
  unfold stripFencesL
  have hstrip : pyStripL (w1 ++ (fenceHead ++ s ++ fenceTail) ++ w2)
      = fenceHead ++ s ++ fenceTail := by
    apply pyStripL_sandwich _ _ _ hw1 hw2
    · exact ⟨'`', "``json".data ++ s ++ fenceTail, by simp [fenceHead], by decide⟩
    · exact ⟨fenceHead ++ s ++ "``".data, '`', by simp [fenceHead, fenceTail], by decide⟩
  rw [hstrip]
  dsimp only
  have hpre : isPrefixL fenceHead (fenceHead ++ s ++ fenceTail) = true := by
    rw [List.append_assoc]
    exact isPrefixL_self_append _ _
  rw [hpre]
  simp only [if_true]
  have hdrop : List.drop 7 (fenceHead ++ s ++ fenceTail) = s ++ fenceTail := by
    rw [List.append_assoc]
    have : (7 : Nat) = fenceHead.length := by decide
    rw [this, List.drop_left]
  rw [hdrop]
  have hsuf : isSuffixL fenceTail (s ++ fenceTail) = true := by
    unfold isSuffixL
    rw [List.reverse_append]
    exact isPrefixL_self_append _ _
  rw [hsuf]
  simp only [if_true]
  have hlen : (s ++ fenceTail).length - 3 = s.length := by
    simp [fenceTail]
  rw [hlen]
  have : s.length = s.length + 0 := rfl
  rw [List.take_append_eq_append_take]
  simp

theorem stripFencesL_clean (s : List Char)
    (hs1 : pyStripL s = s)
    (hs2 : isPrefixL fenceHead s = false)
    (hs3 : isSuffixL fenceTail s = false) :
    stripFencesL s = s := by
  unfold stripFencesL
  dsimp only
  rw [hs1, hs2]
  simp only [Bool.false_eq_true, if_false]
  rw [hs3]
  simp

/-- C4 (amended): a payload wrapped in fence markers, possibly surrounded by
whitespace, parses identically to the bare payload, provided the payload itself carries
no surrounding whitespace, does not begin with the 7-character fence prefix and does
not end with the 3-character fence suffix. -/
theorem c4_fence_strip_roundtrip (w1 w2 : List Char) (s : String)
    (hw1 : ∀ c ∈ w1, isPySpace c = true) (hw2 : ∀ c ∈ w2, isPySpace c = true)
    (hs1 : pyStripL s.data = s.data)
    (hs2 : isPrefixL fenceHead s.data = false)
    (hs3 : isSuffixL fenceTail s.data = false) :
    parseStage ⟨w1 ++ (fenceHead ++ s.data ++ fenceTail) ++ w2⟩ = parseStage s := by
  unfold parseStage
  rw [show (⟨w1 ++ (fenceHead ++ s.data ++ fenceTail) ++ w2⟩ : String).data
      = w1 ++ (fenceHead ++ s.data ++ fenceTail) ++ w2 from rfl]
  rw [stripFencesL_fenced w1 w2 s.data hw1 hw2, stripFencesL_clean s.data hs1 hs2 hs3]

theorem c4_fence_strip_roundtrip_witness :
    (∀ c ∈ [' '], isPySpace c = true) ∧
    (∀ c ∈ ['\n'], isPySpace c = true) ∧
    pyStripL "[1, 2]".data = "[1, 2]".data ∧
    isPrefixL fenceHead "[1, 2]".data = false ∧
    isSuffixL fenceTail "[1, 2]".data = false ∧
    parseStage ⟨[' '] ++ (fenceHead ++ "[1, 2]".data ++ fenceTail) ++ ['\n']⟩ =
      parseStage "[1, 2]" :=
  ⟨by decide, by decide, by decide, by decide, by decide,
   c4_fence_strip_roundtrip [' '] ['\n'] "[1, 2]"
     (by decide) (by decide) (by decide) (by decide) (by decide)⟩

/-- C4 counterexample: for the payload `0` followed by three backticks, the fenced
reply parses to the sentinel dict while the bare payload parses to the number 0, so the
claim's unconditional equivalence is false. -/
theorem c4_fence_collision_counterexample :
    parseStage ("```json" ++ "0```" ++ "```") = sentinelData ∧
    parseStage "0```" = .num (jint 0) ∧
    sentinelData ≠ .num (jint 0) :=
  ⟨by rfl, by rfl, fun h => JValue.noConfusion h⟩

theorem cmpChars_append_same (p x y : List Char) :
    cmpChars (p ++ x) (p ++ y) = cmpChars x y := by
  induction p with
  | nil => rfl
  | cons a as ih => simp [cmpChars, ih]

theorem cmpChars_lt_append (x y u v : List Char)
    (hlen : x.length = y.length) (hlt : cmpChars x y = .lt) :
    cmpChars (x ++ u) (y ++ v) = .lt := by
  induction x generalizing y with
  | nil =>
    cases y with
    | nil => exact absurd hlt (by simp [cmpChars])
    | cons b bs => simp at hlen
  | cons a as ih =>
    cases y with
    | nil => simp at hlen
    | cons b bs =>
      simp only [List.length_cons, Nat.add_right_cancel_iff] at hlen
      simp only [cmpChars, List.cons_append] at hlt ⊢
      by_cases h1 : a.val < b.val
      · simp [h1]
      · simp only [h1, if_false] at hlt ⊢
        by_cases h2 : b.val < a.val
        · simp [h2] at hlt
        · simp only [h2, if_false] at hlt ⊢
          exact ih bs hlen hlt

theorem padDec_length (w n : Nat) : (padDec w n).length = w := by
  induction w generalizing n with
  | zero => rfl
  | succ w ih => simp [padDec, ih]

theorem hexDigitCh_val_lt (d e : Nat) (hd : d ≤ 9) (he : e ≤ 9) :
    ((hexDigitCh d).val < (hexDigitCh e).val) ↔ d < e := by
  interval_cases d <;> interval_cases e <;> simp <;> decide

theorem cmpChars_padDec_lt (w n m : Nat) (hnm : n < m) (hm : m < 10 ^ w) :
    cmpChars (padDec w n) (padDec w m) = .lt := by
  induction w generalizing n m with
  | zero => simp at hm; omega
  | succ w ih =>
    have hpow : 0 < 10 ^ w := pow_pos (by norm_num) w
    have hd2 : m / 10 ^ w ≤ 9 := by
      have hx : m < 10 * 10 ^ w := by
        rw [pow_succ] at hm; omega
      have := (Nat.div_lt_iff_lt_mul hpow).mpr hx
      omega
    have hd1 : n / 10 ^ w ≤ 9 := le_trans (Nat.div_le_div_right (le_of_lt hnm)) hd2
    have hm16a : n / 10 ^ w % 16 = n / 10 ^ w := Nat.mod_eq_of_lt (by omega)
    have hm16b : m / 10 ^ w % 16 = m / 10 ^ w := Nat.mod_eq_of_lt (by omega)
    simp only [padDec, hm16a, hm16b]
    by_cases hq : n / 10 ^ w = m / 10 ^ w
    · have hmod : n % 10 ^ w < m % 10 ^ w := by
        have h1 := Nat.div_add_mod n (10 ^ w)
        have h2 := Nat.div_add_mod m (10 ^ w)
        rw [hq] at h1
        omega
      have hmlt : m % 10 ^ w < 10 ^ w := Nat.mod_lt _ hpow
      rw [hq]
      have hirr : ¬ ((hexDigitCh (m / 10 ^ w)).val < (hexDigitCh (m / 10 ^ w)).val) :=
        fun h => Nat.lt_irrefl _ h
      simp only [cmpChars, if_neg hirr]
      exact ih _ _ hmod hmlt
    · have hlt : n / 10 ^ w < m / 10 ^ w :=
        lt_of_le_of_ne (Nat.div_le_div_right (le_of_lt hnm)) hq
      simp only [cmpChars]
      rw [if_pos ((hexDigitCh_val_lt _ _ hd1 hd2).mpr hlt)]

theorem cmpChars_cons_same (c : Char) (x y : List Char) :
    cmpChars (c :: x) (c :: y) = cmpChars x y := by
  have h : ¬(c.val < c.val) := fun h => Nat.lt_irrefl _ h
  simp [cmpChars, h]

theorem cmpChars_pad_block_lt (w n m : Nat) (x y : List Char)
    (hnm : n < m) (hm : m < 10 ^ w) :
    cmpChars (padDec w n ++ x) (padDec w m ++ y) = .lt :=
  cmpChars_lt_append _ _ _ _ (by rw [padDec_length, padDec_length])
    (cmpChars_padDec_lt w n m hnm hm)

theorem daysInMonth_le (y m : Nat) : daysInMonth y m ≤ 31 := by
  unfold daysInMonth
  split_ifs <;> omega

theorem iso_lt (a b : Datetime) (ha : validDtB a = true) (hb : validDtB b = true)
    (hab : dtLtB a b = true) :
    cmpChars (isoChars a) (isoChars b) = .lt := by
  unfold validDtB at ha hb
  simp only [Bool.and_eq_true, decide_eq_true_eq] at ha hb
  obtain ⟨⟨⟨⟨⟨⟨⟨⟨⟨hay1, hay2⟩, ham1⟩, ham2⟩, had1⟩, had2⟩, hah⟩, hami⟩, has⟩, hamic⟩ := ha
  obtain ⟨⟨⟨⟨⟨⟨⟨⟨⟨hby1, hby2⟩, hbm1⟩, hbm2⟩, hbd1⟩, hbd2⟩, hbh⟩, hbmi⟩, hbs⟩, hbmic⟩ := hb
  unfold dtLtB at hab
  simp only [Bool.or_eq_true, Bool.and_eq_true, decide_eq_true_eq] at hab
  unfold isoChars
  rcases hab with h | ⟨hye, hab⟩
  · exact cmpChars_pad_block_lt 4 _ _ _ _ h (by omega)
  rw [hye, cmpChars_append_same, cmpChars_cons_same]
  rcases hab with h | ⟨hmoe, hab⟩
  · exact cmpChars_pad_block_lt 2 _ _ _ _ h (by omega)
  rw [hmoe, cmpChars_append_same, cmpChars_cons_same]
  rcases hab with h | ⟨hde, hab⟩
  · refine cmpChars_pad_block_lt 2 _ _ _ _ h ?_
    have := daysInMonth_le b.year b.month
    omega
  rw [hde, cmpChars_append_same, cmpChars_cons_same]
  rcases hab with h | ⟨hhe, hab⟩
  · exact cmpChars_pad_block_lt 2 _ _ _ _ h (by omega)
  rw [hhe, cmpChars_append_same, cmpChars_cons_same]
  rcases hab with h | ⟨hmie, hab⟩
  · exact cmpChars_pad_block_lt 2 _ _ _ _ h (by omega)
  rw [hmie, cmpChars_append_same, cmpChars_cons_same]
  rcases hab with h | ⟨hse, hmiclt⟩
  · exact cmpChars_pad_block_lt 2 _ _ _ _ h (by omega)
  rw [hse, cmpChars_append_same]
  by_cases hz : a.microsecond = 0
  · rw [if_pos hz]
    have hbz : ¬(b.microsecond = 0) := by omega
    rw [if_neg hbz]
    rfl
  · rw [if_neg hz]
    have hbz : ¬(b.microsecond = 0) := by omega
    rw [if_neg hbz, cmpChars_cons_same]
    exact cmpChars_padDec_lt 6 _ _ hmiclt (by omega)

theorem insertDesc_all_lt (x : Document) (l : List Document)
    (h : ∀ y ∈ l, dbValCmp (sortKey x) (sortKey y) = .lt) :
    insertDesc x l = l ++ [x] := by
  induction l with
  | nil => rfl
  | cons y ys ih =>
    have hy : dbValCmp (sortKey x) (sortKey y) = .lt := h y (by simp)
    unfold insertDesc
    rw [if_neg (by rw [hy]; exact fun hcontra => Ordering.noConfusion hcontra)]
    rw [ih (fun z hz => h z (by simp [hz]))]
    simp

theorem sortDesc_of_pairwise (l : List Document)
    (h : List.Pairwise (fun x y => dbValCmp (sortKey x) (sortKey y) = .lt) l) :
    sortDesc l = l.reverse := by
  induction l with
  | nil => rfl
  | cons x xs ih =>
    rw [List.pairwise_cons] at h
    unfold sortDesc
    rw [ih h.2]
    rw [insertDesc_all_lt x xs.reverse (fun y hy => h.1 y (List.mem_reverse.mp hy))]
    simp

theorem hexDigitCh_toNat (d : Nat) (h : d ≤ 9) : (hexDigitCh d).toNat = 48 + d := by
  interval_cases d <;> rfl

theorem isDigitCh_hexDigitCh (d : Nat) (h : d ≤ 9) : isDigitCh (hexDigitCh d) = true := by
  interval_cases d <;> rfl

theorem readFixed_padDec (w n : Nat) (rest : List Char) (h : n < 10 ^ w) :
    readFixed w (padDec w n ++ rest) = some (n, rest) := by
  induction w generalizing n with
  | zero =>
    simp only [pow_zero, Nat.lt_one_iff] at h
    subst h
    rfl
  | succ w ih =>
    have hpow : 0 < 10 ^ w := pow_pos (by norm_num) w
    have hd : n / 10 ^ w ≤ 9 := by
      have hx : n < 10 * 10 ^ w := by rw [pow_succ] at h; omega
      have := (Nat.div_lt_iff_lt_mul hpow).mpr hx
      omega
    have hm16 : n / 10 ^ w % 16 = n / 10 ^ w := Nat.mod_eq_of_lt (by omega)
    simp only [padDec, hm16, List.cons_append, List.append_eq, readFixed,
      isDigitCh_hexDigitCh _ hd, if_true]
    rw [ih (n % 10 ^ w) (Nat.mod_lt _ hpow)]
    simp only [Option.map_some']
    rw [hexDigitCh_toNat _ hd]
    have hsub : 48 + n / 10 ^ w - 48 = n / 10 ^ w := by omega
    rw [hsub]
    have hdm : n / 10 ^ w * 10 ^ w + n % 10 ^ w = n := Nat.div_add_mod' n (10 ^ w)
    rw [hdm]

theorem padDec_all_digits (w n : Nat) (h : n < 10 ^ w) :
    ∀ c ∈ padDec w n, isDigitCh c = true := by
  induction w generalizing n with
  | zero => simp [padDec]
  | succ w ih =>
    have hpow : 0 < 10 ^ w := pow_pos (by norm_num) w
    have hd : n / 10 ^ w ≤ 9 := by
      have hx : n < 10 * 10 ^ w := by rw [pow_succ] at h; omega
      have := (Nat.div_lt_iff_lt_mul hpow).mpr hx
      omega
    have hm16 : n / 10 ^ w % 16 = n / 10 ^ w := Nat.mod_eq_of_lt (by omega)
    intro c hc
    simp only [padDec, hm16, List.mem_cons] at hc
    rcases hc with hc | hc
    · rw [hc]; exact isDigitCh_hexDigitCh _ hd
    · exact ih (n % 10 ^ w) (Nat.mod_lt _ hpow) c hc

theorem digitsVal_padDec_aux (w n acc : Nat) (h : n < 10 ^ w) :
    List.foldl (fun a c => a * 10 + (c.toNat - 48)) acc (padDec w n) = acc * 10 ^ w + n := by
  induction w generalizing n acc with
  | zero =>
    simp only [pow_zero, Nat.lt_one_iff] at h
    subst h
    simp [padDec]
  | succ w ih =>
    have hpow : 0 < 10 ^ w := pow_pos (by norm_num) w
    have hd : n / 10 ^ w ≤ 9 := by
      have hx : n < 10 * 10 ^ w := by rw [pow_succ] at h; omega
      have := (Nat.div_lt_iff_lt_mul hpow).mpr hx
      omega
    have hm16 : n / 10 ^ w % 16 = n / 10 ^ w := Nat.mod_eq_of_lt (by omega)
    simp only [padDec, hm16, List.foldl_cons]
    rw [hexDigitCh_toNat _ hd]
    have h48 : acc * 10 + (48 + n / 10 ^ w - 48) = acc * 10 + n / 10 ^ w := by omega
    rw [h48, ih (n % 10 ^ w) _ (Nat.mod_lt _ hpow)]
    have hdm : n / 10 ^ w * 10 ^ w + n % 10 ^ w = n := Nat.div_add_mod' n (10 ^ w)
    calc (acc * 10 + n / 10 ^ w) * 10 ^ w + n % 10 ^ w
        = acc * (10 ^ w * 10) + (n / 10 ^ w * 10 ^ w + n % 10 ^ w) := by ring
      _ = acc * 10 ^ (w + 1) + n := by rw [hdm, pow_succ]

theorem digitsVal_padDec (w n : Nat) (h : n < 10 ^ w) : digitsVal (padDec w n) = n := by
  unfold digitsVal
  rw [digitsVal_padDec_aux w n 0 h]
  omega

theorem takeWhile_all (p : Char → Bool) (l : List Char) (h : ∀ c ∈ l, p c = true) :
    l.takeWhile p = l := by
  induction l with
  | nil => rfl
  | cons a as ih =>
    simp only [List.takeWhile_cons, h a (by simp), if_true]
    rw [ih (fun c hc => h c (by simp [hc]))]

theorem dropWhile_all (p : Char → Bool) (l : List Char) (h : ∀ c ∈ l, p c = true) :
    l.dropWhile p = [] := by
  induction l with
  | nil => rfl
  | cons a as ih =>
    simp only [List.dropWhile_cons, h a (by simp), if_true]
    exact ih (fun c hc => h c (by simp [hc]))

theorem expectCh_cons (c : Char) (r : List Char) : expectCh c (c :: r) = some r := by
  simp [expectCh]

theorem fromIso_isoformat (t : Datetime) (h : validDtB t = true) :
    fromIso (isoformat t) = some t := by
  have hbounds := h
  unfold validDtB at hbounds
  simp only [Bool.and_eq_true, decide_eq_true_eq] at hbounds
  obtain ⟨⟨⟨⟨⟨⟨⟨⟨⟨hy1, hy2⟩, hm1⟩, hm2⟩, hd1⟩, hd2⟩, hhr⟩, hmi⟩, hs⟩, hmic⟩ := hbounds
  unfold fromIso
  have hdata : (isoformat t).data = isoChars t := rfl
  rw [hdata]
  unfold isoChars
  rw [readFixed_padDec 4 t.year _ (by omega)]
  dsimp only
  rw [expectCh_cons]
  dsimp only
  rw [readFixed_padDec 2 t.month _ (by omega)]
  dsimp only
  rw [expectCh_cons]
  dsimp only
  rw [readFixed_padDec 2 t.day _ (by
    have := daysInMonth_le t.year t.month
    omega)]
  dsimp only
  rw [readFixed_padDec 2 t.hour _ (by omega)]
  dsimp only
  rw [expectCh_cons]
  dsimp only
  rw [readFixed_padDec 2 t.minute _ (by omega)]
  dsimp only
  rw [expectCh_cons]
  dsimp only
  by_cases hz : t.microsecond = 0
  · rw [if_pos hz]
    rw [readFixed_padDec 2 t.second [] (by omega)]
    dsimp only [fracPart]
    have heta : (⟨t.year, t.month, t.day, t.hour, t.minute, t.second, 0⟩ : Datetime) = t := by
      rw [← hz]
    rw [heta, if_pos h]
  · rw [if_neg hz]
    rw [readFixed_padDec 2 t.second _ (by omega)]
    dsimp only [fracPart]
    rw [if_pos rfl]
    have hmlt : t.microsecond < 10 ^ 6 := by omega
    rw [takeWhile_all isDigitCh _ (padDec_all_digits 6 t.microsecond hmlt),
        dropWhile_all isDigitCh _ (padDec_all_digits 6 t.microsecond hmlt)]
    have hne : (padDec 6 t.microsecond).isEmpty = false := rfl
    rw [hne]
    simp only [List.isEmpty_nil, Bool.not_true, Bool.or_false, Bool.false_or,
      Bool.false_eq_true, if_false]
    have hlen : (padDec 6 t.microsecond).length = 6 := padDec_length 6 t.microsecond
    rw [hlen]
    have htake : (padDec 6 t.microsecond).take 6 = padDec 6 t.microsecond :=
      List.take_of_length_le (by rw [hlen])
    rw [htake]
    simp only [Nat.sub_self, List.replicate_zero, List.append_nil]
    rw [digitsVal_padDec 6 t.microsecond hmlt]
    have heta : (⟨t.year, t.month, t.day, t.hour, t.minute, t.second, t.microsecond⟩ : Datetime) = t := rfl
    rw [heta, if_pos h]

theorem mapExcept_map {α β γ : Type} (f : β → Except PyExc γ) (g : α → β) (k : α → γ)
    (l : List α) (h : ∀ x ∈ l, f (g x) = .ok (k x)) :
    mapExcept f (l.map g) = .ok (l.map k) := by
  induction l with
  | nil => rfl
  | cons x xs ih =>
    simp only [List.map_cons]
    unfold mapExcept
    rw [h x (by simp), ih (fun z hz => h z (by simp [hz]))]

theorem docToResult_resultDoc (a : AnalysisResult) (h : validDtB a.upload_time = true) :
    docToResult (resultDoc a) = .ok a := by
  obtain ⟨i, fn, ut, td, dfs, ac, img⟩ := a
  have hdf : mapExcept pydDbDefect (dfs.map dumpDefect) = .ok dfs := by
    have := mapExcept_map pydDbDefect dumpDefect id dfs (fun x _ => rfl)
    simpa using this
  cases img with
  | none =>
    unfold docToResult
    have hn : normalizeDoc (resultDoc ⟨i, fn, ut, td, dfs, ac, none⟩) =
        .ok (setField (resultDoc (⟨i, fn, ut, td, dfs, ac, none⟩ : AnalysisResult)) "upload_time" (DbValue.dt ut)) := by
      unfold normalizeDoc
      rw [show dbGet (resultDoc (⟨i, fn, ut, td, dfs, ac, none⟩ : AnalysisResult)) "upload_time" =
          some (DbValue.str (isoformat ut)) from rfl]
      dsimp only
      rw [fromIso_isoformat ut h]
    rw [hn]
    dsimp only
    have hL : setField (resultDoc (⟨i, fn, ut, td, dfs, ac, none⟩ : AnalysisResult)) "upload_time" (DbValue.dt ut) =
        [("id", DbValue.str i), ("filename", DbValue.str fn), ("upload_time", DbValue.dt ut),
           ("total_defects", DbValue.int td),
           ("defects_found", DbValue.arr (dfs.map dumpDefect)),
           ("analysis_complete", DbValue.bool ac), ("image_base64", DbValue.null)] := rfl
    rw [hL]
    rw [show dbGet ([("id", DbValue.str i), ("filename", DbValue.str fn), ("upload_time", DbValue.dt ut),
           ("total_defects", DbValue.int td),
           ("defects_found", DbValue.arr (dfs.map dumpDefect)),
           ("analysis_complete", DbValue.bool ac), ("image_base64", DbValue.null)]) "id" = some (DbValue.str i) from rfl,
        show dbGet ([("id", DbValue.str i), ("filename", DbValue.str fn), ("upload_time", DbValue.dt ut),
           ("total_defects", DbValue.int td),
           ("defects_found", DbValue.arr (dfs.map dumpDefect)),
           ("analysis_complete", DbValue.bool ac), ("image_base64", DbValue.null)]) "filename" = some (DbValue.str fn) from rfl,
        show dbGet ([("id", DbValue.str i), ("filename", DbValue.str fn), ("upload_time", DbValue.dt ut),
           ("total_defects", DbValue.int td),
           ("defects_found", DbValue.arr (dfs.map dumpDefect)),
           ("analysis_complete", DbValue.bool ac), ("image_base64", DbValue.null)]) "upload_time" = some (DbValue.dt ut) from rfl,
        show dbGet ([("id", DbValue.str i), ("filename", DbValue.str fn), ("upload_time", DbValue.dt ut),
           ("total_defects", DbValue.int td),
           ("defects_found", DbValue.arr (dfs.map dumpDefect)),
           ("analysis_complete", DbValue.bool ac), ("image_base64", DbValue.null)]) "total_defects" = some (DbValue.int td) from rfl,
        show dbGet ([("id", DbValue.str i), ("filename", DbValue.str fn), ("upload_time", DbValue.dt ut),
           ("total_defects", DbValue.int td),
           ("defects_found", DbValue.arr (dfs.map dumpDefect)),
           ("analysis_complete", DbValue.bool ac), ("image_base64", DbValue.null)]) "defects_found" = some (DbValue.arr (dfs.map dumpDefect)) from rfl,
        show dbGet ([("id", DbValue.str i), ("filename", DbValue.str fn), ("upload_time", DbValue.dt ut),
           ("total_defects", DbValue.int td),
           ("defects_found", DbValue.arr (dfs.map dumpDefect)),
           ("analysis_complete", DbValue.bool ac), ("image_base64", DbValue.null)]) "analysis_complete" = some (DbValue.bool ac) from rfl,
        show dbGet ([("id", DbValue.str i), ("filename", DbValue.str fn), ("upload_time", DbValue.dt ut),
           ("total_defects", DbValue.int td),
           ("defects_found", DbValue.arr (dfs.map dumpDefect)),
           ("analysis_complete", DbValue.bool ac), ("image_base64", DbValue.null)]) "image_base64" = some DbValue.null from rfl]
    dsimp only [pydDbStr, pydDbInt, pydDbBool]
    rw [hdf]
  | some s =>
    unfold docToResult
    have hn : normalizeDoc (resultDoc ⟨i, fn, ut, td, dfs, ac, some s⟩) =
        .ok (setField (resultDoc (⟨i, fn, ut, td, dfs, ac, some s⟩ : AnalysisResult)) "upload_time" (DbValue.dt ut)) := by
      unfold normalizeDoc
      rw [show dbGet (resultDoc (⟨i, fn, ut, td, dfs, ac, some s⟩ : AnalysisResult)) "upload_time" =
          some (DbValue.str (isoformat ut)) from rfl]
      dsimp only
      rw [fromIso_isoformat ut h]
    rw [hn]
    dsimp only
    have hL : setField (resultDoc (⟨i, fn, ut, td, dfs, ac, some s⟩ : AnalysisResult)) "upload_time" (DbValue.dt ut) =
        [("id", DbValue.str i), ("filename", DbValue.str fn), ("upload_time", DbValue.dt ut),
           ("total_defects", DbValue.int td),
           ("defects_found", DbValue.arr (dfs.map dumpDefect)),
           ("analysis_complete", DbValue.bool ac), ("image_base64", DbValue.str s)] := rfl
    rw [hL]
    rw [show dbGet ([("id", DbValue.str i), ("filename", DbValue.str fn), ("upload_time", DbValue.dt ut),
           ("total_defects", DbValue.int td),
           ("defects_found", DbValue.arr (dfs.map dumpDefect)),
           ("analysis_complete", DbValue.bool ac), ("image_base64", DbValue.str s)]) "id" = some (DbValue.str i) from rfl,
        show dbGet ([("id", DbValue.str i), ("filename", DbValue.str fn), ("upload_time", DbValue.dt ut),
           ("total_defects", DbValue.int td),
           ("defects_found", DbValue.arr (dfs.map dumpDefect)),
           ("analysis_complete", DbValue.bool ac), ("image_base64", DbValue.str s)]) "filename" = some (DbValue.str fn) from rfl,
        show dbGet ([("id", DbValue.str i), ("filename", DbValue.str fn), ("upload_time", DbValue.dt ut),
           ("total_defects", DbValue.int td),
           ("defects_found", DbValue.arr (dfs.map dumpDefect)),
           ("analysis_complete", DbValue.bool ac), ("image_base64", DbValue.str s)]) "upload_time" = some (DbValue.dt ut) from rfl,
        show dbGet ([("id", DbValue.str i), ("filename", DbValue.str fn), ("upload_time", DbValue.dt ut),
           ("total_defects", DbValue.int td),
           ("defects_found", DbValue.arr (dfs.map dumpDefect)),
           ("analysis_complete", DbValue.bool ac), ("image_base64", DbValue.str s)]) "total_defects" = some (DbValue.int td) from rfl,
        show dbGet ([("id", DbValue.str i), ("filename", DbValue.str fn), ("upload_time", DbValue.dt ut),
           ("total_defects", DbValue.int td),
           ("defects_found", DbValue.arr (dfs.map dumpDefect)),
           ("analysis_complete", DbValue.bool ac), ("image_base64", DbValue.str s)]) "defects_found" = some (DbValue.arr (dfs.map dumpDefect)) from rfl,
        show dbGet ([("id", DbValue.str i), ("filename", DbValue.str fn), ("upload_time", DbValue.dt ut),
           ("total_defects", DbValue.int td),
           ("defects_found", DbValue.arr (dfs.map dumpDefect)),
           ("analysis_complete", DbValue.bool ac), ("image_base64", DbValue.str s)]) "analysis_complete" = some (DbValue.bool ac) from rfl,
        show dbGet ([("id", DbValue.str i), ("filename", DbValue.str fn), ("upload_time", DbValue.dt ut),
           ("total_defects", DbValue.int td),
           ("defects_found", DbValue.arr (dfs.map dumpDefect)),
           ("analysis_complete", DbValue.bool ac), ("image_base64", DbValue.str s)]) "image_base64" = some (DbValue.str s) from rfl]
    dsimp only [pydDbStr, pydDbInt, pydDbBool]
    rw [hdf]

theorem docToResult_modelDump (a : AnalysisResult) :
    docToResult (modelDump a) = .ok a := by
  obtain ⟨i, fn, ut, td, dfs, ac, img⟩ := a
  have hdf : mapExcept pydDbDefect (dfs.map dumpDefect) = .ok dfs := by
    have := mapExcept_map pydDbDefect dumpDefect id dfs (fun x _ => rfl)
    simpa using this
  cases img with
  | none =>
    unfold docToResult
    have hn : normalizeDoc (modelDump ⟨i, fn, ut, td, dfs, ac, none⟩) =
        .ok (modelDump (⟨i, fn, ut, td, dfs, ac, none⟩ : AnalysisResult)) := by
      unfold normalizeDoc
      rw [show dbGet (modelDump (⟨i, fn, ut, td, dfs, ac, none⟩ : AnalysisResult)) "upload_time" =
          some (DbValue.dt ut) from rfl]
    rw [hn]
    dsimp only
    have hL : modelDump (⟨i, fn, ut, td, dfs, ac, none⟩ : AnalysisResult) =
        [("id", DbValue.str i), ("filename", DbValue.str fn), ("upload_time", DbValue.dt ut),
           ("total_defects", DbValue.int td),
           ("defects_found", DbValue.arr (dfs.map dumpDefect)),
           ("analysis_complete", DbValue.bool ac), ("image_base64", DbValue.null)] := rfl
    rw [hL]
    rw [show dbGet ([("id", DbValue.str i), ("filename", DbValue.str fn), ("upload_time", DbValue.dt ut),
           ("total_defects", DbValue.int td),
           ("defects_found", DbValue.arr (dfs.map dumpDefect)),
           ("analysis_complete", DbValue.bool ac), ("image_base64", DbValue.null)]) "id" = some (DbValue.str i) from rfl,
        show dbGet ([("id", DbValue.str i), ("filename", DbValue.str fn), ("upload_time", DbValue.dt ut),
           ("total_defects", DbValue.int td),
           ("defects_found", DbValue.arr (dfs.map dumpDefect)),
           ("analysis_complete", DbValue.bool ac), ("image_base64", DbValue.null)]) "filename" = some (DbValue.str fn) from rfl,
        show dbGet ([("id", DbValue.str i), ("filename", DbValue.str fn), ("upload_time", DbValue.dt ut),
           ("total_defects", DbValue.int td),
           ("defects_found", DbValue.arr (dfs.map dumpDefect)),
           ("analysis_complete", DbValue.bool ac), ("image_base64", DbValue.null)]) "upload_time" = some (DbValue.dt ut) from rfl,
        show dbGet ([("id", DbValue.str i), ("filename", DbValue.str fn), ("upload_time", DbValue.dt ut),
           ("total_defects", DbValue.int td),
           ("defects_found", DbValue.arr (dfs.map dumpDefect)),
           ("analysis_complete", DbValue.bool ac), ("image_base64", DbValue.null)]) "total_defects" = some (DbValue.int td) from rfl,
        show dbGet ([("id", DbValue.str i), ("filename", DbValue.str fn), ("upload_time", DbValue.dt ut),
           ("total_defects", DbValue.int td),
           ("defects_found", DbValue.arr (dfs.map dumpDefect)),
           ("analysis_complete", DbValue.bool ac), ("image_base64", DbValue.null)]) "defects_found" = some (DbValue.arr (dfs.map dumpDefect)) from rfl,
        show dbGet ([("id", DbValue.str i), ("filename", DbValue.str fn), ("upload_time", DbValue.dt ut),
           ("total_defects", DbValue.int td),
           ("defects_found", DbValue.arr (dfs.map dumpDefect)),
           ("analysis_complete", DbValue.bool ac), ("image_base64", DbValue.null)]) "analysis_complete" = some (DbValue.bool ac) from rfl,
        show dbGet ([("id", DbValue.str i), ("filename", DbValue.str fn), ("upload_time", DbValue.dt ut),
           ("total_defects", DbValue.int td),
           ("defects_found", DbValue.arr (dfs.map dumpDefect)),
           ("analysis_complete", DbValue.bool ac), ("image_base64", DbValue.null)]) "image_base64" = some DbValue.null from rfl]
    dsimp only [pydDbStr, pydDbInt, pydDbBool]
    rw [hdf]
  | some s =>
    unfold docToResult
    have hn : normalizeDoc (modelDump ⟨i, fn, ut, td, dfs, ac, some s⟩) =
        .ok (modelDump (⟨i, fn, ut, td, dfs, ac, some s⟩ : AnalysisResult)) := by
      unfold normalizeDoc
      rw [show dbGet (modelDump (⟨i, fn, ut, td, dfs, ac, some s⟩ : AnalysisResult)) "upload_time" =
          some (DbValue.dt ut) from rfl]
    rw [hn]
    dsimp only
    have hL : modelDump (⟨i, fn, ut, td, dfs, ac, some s⟩ : AnalysisResult) =
        [("id", DbValue.str i), ("filename", DbValue.str fn), ("upload_time", DbValue.dt ut),
           ("total_defects", DbValue.int td),
           ("defects_found", DbValue.arr (dfs.map dumpDefect)),
           ("analysis_complete", DbValue.bool ac), ("image_base64", DbValue.str s)] := rfl
    rw [hL]
    rw [show dbGet ([("id", DbValue.str i), ("filename", DbValue.str fn), ("upload_time", DbValue.dt ut),
           ("total_defects", DbValue.int td),
           ("defects_found", DbValue.arr (dfs.map dumpDefect)),
           ("analysis_complete", DbValue.bool ac), ("image_base64", DbValue.str s)]) "id" = some (DbValue.str i) from rfl,
        show dbGet ([("id", DbValue.str i), ("filename", DbValue.str fn), ("upload_time", DbValue.dt ut),
           ("total_defects", DbValue.int td),
           ("defects_found", DbValue.arr (dfs.map dumpDefect)),
           ("analysis_complete", DbValue.bool ac), ("image_base64", DbValue.str s)]) "filename" = some (DbValue.str fn) from rfl,
        show dbGet ([("id", DbValue.str i), ("filename", DbValue.str fn), ("upload_time", DbValue.dt ut),
           ("total_defects", DbValue.int td),
           ("defects_found", DbValue.arr (dfs.map dumpDefect)),
           ("analysis_complete", DbValue.bool ac), ("image_base64", DbValue.str s)]) "upload_time" = some (DbValue.dt ut) from rfl,
        show dbGet ([("id", DbValue.str i), ("filename", DbValue.str fn), ("upload_time", DbValue.dt ut),
           ("total_defects", DbValue.int td),
           ("defects_found", DbValue.arr (dfs.map dumpDefect)),
           ("analysis_complete", DbValue.bool ac), ("image_base64", DbValue.str s)]) "total_defects" = some (DbValue.int td) from rfl,
        show dbGet ([("id", DbValue.str i), ("filename", DbValue.str fn), ("upload_time", DbValue.dt ut),
           ("total_defects", DbValue.int td),
           ("defects_found", DbValue.arr (dfs.map dumpDefect)),
           ("analysis_complete", DbValue.bool ac), ("image_base64", DbValue.str s)]) "defects_found" = some (DbValue.arr (dfs.map dumpDefect)) from rfl,
        show dbGet ([("id", DbValue.str i), ("filename", DbValue.str fn), ("upload_time", DbValue.dt ut),
           ("total_defects", DbValue.int td),
           ("defects_found", DbValue.arr (dfs.map dumpDefect)),
           ("analysis_complete", DbValue.bool ac), ("image_base64", DbValue.str s)]) "analysis_complete" = some (DbValue.bool ac) from rfl,
        show dbGet ([("id", DbValue.str i), ("filename", DbValue.str fn), ("upload_time", DbValue.dt ut),
           ("total_defects", DbValue.int td),
           ("defects_found", DbValue.arr (dfs.map dumpDefect)),
           ("analysis_complete", DbValue.bool ac), ("image_base64", DbValue.str s)]) "image_base64" = some (DbValue.str s) from rfl]
    dsimp only [pydDbStr, pydDbInt, pydDbBool]
    rw [hdf]

theorem resultDoc_key_lt (a b : AnalysisResult)
    (ha : validDtB a.upload_time = true) (hb : validDtB b.upload_time = true)
    (hab : dtLtB a.upload_time b.upload_time = true) :
    dbValCmp (sortKey (resultDoc a)) (sortKey (resultDoc b)) = .lt := by
  have hka : sortKey (resultDoc a) = .str (isoformat a.upload_time) := rfl
  have hkb : sortKey (resultDoc b) = .str (isoformat b.upload_time) := rfl
  rw [hka, hkb]
  show cmpChars (isoformat a.upload_time).data (isoformat b.upload_time).data = .lt
  exact iso_lt _ _ ha hb hab

/-- C8: after inserting N analyses with strictly increasing upload times, history with
limit K < N returns exactly the K most recent results in descending upload-time order;
the default limit is 10; retrieval tolerates `upload_time` stored as an ISO string
(normalized back to a datetime) or as a native datetime. -/
theorem c8_history_recency (results : List AnalysisResult) (K : Nat)
    (hv : ∀ a ∈ results, validDtB a.upload_time = true)
    (hinc : List.Pairwise (fun a b => dtLtB a.upload_time b.upload_time = true) results)
    (hK : K < results.length) :
    getHistory K (results.map resultDoc) = .ok (results.reverse.take K) ∧
    (results.reverse.take K).length = K ∧
    List.Pairwise (fun a b => dtLtB b.upload_time a.upload_time = true)
      (results.reverse.take K) ∧
    getHistory historyDefaultLimit (results.map resultDoc) = .ok (results.reverse.take 10) ∧
    historyDefaultLimit = 10 ∧
    (∀ a : AnalysisResult, getHistory 1 [modelDump a] = .ok [a]) := by
  have hsort : sortDesc (results.map resultDoc) = (results.map resultDoc).reverse := by
    apply sortDesc_of_pairwise
    rw [List.pairwise_map]
    exact hinc.imp_of_mem (fun ha hb hr =>
      resultDoc_key_lt _ _ (hv _ ha) (hv _ hb) hr)
  have hget : ∀ n : Nat, getHistory n (results.map resultDoc) = .ok (results.reverse.take n) := by
    intro n
    unfold getHistory
    rw [hsort, ← List.map_reverse, ← List.map_take]
    rw [mapExcept_map docToResult resultDoc id _ (fun a ha => by
      rw [docToResult_resultDoc a (hv a (List.mem_reverse.mp (List.take_subset _ _ ha)))]
      rfl)]
    rw [List.map_id]
  refine ⟨hget K, ?_, ?_, hget 10, rfl, ?_⟩
  · rw [List.length_take, List.length_reverse]
    omega
  · have hrev : results.reverse.Pairwise (fun a b => dtLtB b.upload_time a.upload_time = true) :=
      List.pairwise_reverse.mpr hinc
    exact hrev.sublist (List.take_sublist _ _)
  · intro a
    unfold getHistory
    have hs : sortDesc [modelDump a] = [modelDump a] := rfl
    rw [hs]
    have ht : List.take 1 [modelDump a] = [modelDump a] := rfl
    rw [ht]
    unfold mapExcept
    rw [docToResult_modelDump a]
    rfl

theorem c8_history_recency_witness :
    (∀ a ∈ [resA, resB, resC], validDtB a.upload_time = true) ∧
    List.Pairwise (fun a b => dtLtB a.upload_time b.upload_time = true) [resA, resB, resC] ∧
    2 < ([resA, resB, resC] : List AnalysisResult).length ∧
    getHistory 2 ([resA, resB, resC].map resultDoc) =
      .ok (([resA, resB, resC] : List AnalysisResult).reverse.take 2) ∧
    ([resA, resB, resC] : List AnalysisResult).reverse.take 2 = [resC, resB] :=
  ⟨by decide, by decide, by decide,
   (c8_history_recency [resA, resB, resC] 2 (by decide) (by decide) (by decide)).1,
   by rfl⟩
